import Mathlib

/-!
Professor Search frontend: derived-state list management.

A shallow embedding of the client-side list logic of the professor search screen
(`src/pages/SearchPage.jsx`) and of the university roster screen
(`src/pages/UniversitiesPage.jsx`), with theorems about it.

JavaScript strings are Lean strings, ordered by their UTF-16 code units.  `null`/`undefined`
fields are `none`.
`String.prototype.toLowerCase` is a library function whose Unicode tables are not part of the
repository: every definition that calls it takes it as the parameter `toLowerCase`, and the
theorems hold for every such function.  Concrete evaluations use `asciiToLowerCase`, which
agrees with it on strings of ASCII characters.
-/

namespace ProfessorSearch

/-! ## ECMAScript library primitives -/

/-- The code points `String.prototype.trim` strips: ECMAScript WhiteSpace and LineTerminator. -/
def isJsWhiteSpace (c : Char) : Bool :=
  let n := c.toNat
  n == 0x09 || n == 0x0A || n == 0x0B || n == 0x0C || n == 0x0D || n == 0x20 || n == 0xA0 ||
  n == 0x1680 || (0x2000 ≤ n && n ≤ 0x200A) || n == 0x2028 || n == 0x2029 || n == 0x202F ||
  n == 0x205F || n == 0x3000 || n == 0xFEFF

/-- The method `s.trim()`. -/
def trim (s : String) : String :=
  ⟨((s.data.dropWhile isJsWhiteSpace).reverse.dropWhile isJsWhiteSpace).reverse⟩

/-- The method `s.includes(t)`: `t` occurs in `s` as a contiguous run of characters. -/
def includes (s t : String) : Bool :=
  s.data.tails.any (fun u => t.data.isPrefixOf u)

/-- Splitting a character list at every occurrence of `sep`. -/
def splitChars (sep : Char) : List Char → List (List Char)
  | [] => [[]]
  | c :: cs =>
    if c = sep then [] :: splitChars sep cs
    else
      match splitChars sep cs with
      | [] => [[c]]
      | t :: ts => (c :: t) :: ts

/-- The method `s.split(sep)` for a one-character separator. -/
def split (s : String) (sep : Char) : List String :=
  (splitChars sep s.data).map String.mk

/-- Lower-casing of the ASCII letters, every other character unchanged: the behaviour of
`String.prototype.toLowerCase` on ASCII text. -/
def asciiToLowerCase (s : String) : String :=
  ⟨s.data.map (fun c => if 65 ≤ c.toNat ∧ c.toNat ≤ 90 then Char.ofNat (c.toNat + 32) else c)⟩

/-- JavaScript truthiness of a string-or-null value: `null`, `undefined` and `""` are falsy. -/
def truthy : Option String → Bool
  | some s => s != ""
  | none => false

/-- The chain `xs.filter(Boolean)` on string-or-null values: the non-empty strings, in order. -/
def filterBoolean (xs : List (Option String)) : List String :=
  xs.filterMap (fun o => if truthy o then o else none)

/-- The method `set.add(x)` on the insertion-ordered elements of a `Set`. -/
def setAdd (seen : List String) (x : String) : List String :=
  if x ∈ seen then seen else seen ++ [x]

/-- The expression `[...new Set(xs)]`: the distinct elements in order of first insertion. -/
def setSpread (xs : List String) : List String :=
  xs.foldl setAdd []

/-! ## Data model -/

/-- A professor record as returned by `GET /professor/all`. Dates are the date strings of the
JSON payload (`new Date(p.mailingDate)` parses them). -/
structure Professor where
  id : Nat := 0
  name : Option String := none
  email : Option String := none
  universityName : Option String := none
  designation : Option String := none
  researchInterests : Option String := none
  portfolioWebsite : Option String := none
  labWebsite : Option String := none
  sourceUrl : Option String := none
  googleScholarUrl : Option String := none
  recruitingPhdStudents : Option String := none
  currentlyRecruiting : Option String := none
  hiringSemester : Option String := none
  mailed : Option Bool := none
  mailingDate : Option String := none
  followUpMailSent : Option Bool := none
  followUpMailDate : Option String := none
  priority : Option Bool := none
  deadline : Option String := none
  greRequired : Option Bool := none
  comments : Option String := none
  deriving DecidableEq

/-- A university entry of the roster. Persisted entries carry a string `name`
(`u.name.toLowerCase()` is called on each of them unguarded). -/
structure University where
  id : Option Nat := none
  name : String
  csFacultyWebsiteUrl : Option String := none
  mainWebsiteUrl : Option String := none
  ranking : Option Int := none
  state : Option String := none
  greRequired : Option String := none
  deadline : Option String := none
  notes : Option String := none
  comments : Option String := none
  status : Option String := none
  fromProfessors : Option Bool := none
  deriving DecidableEq

/-! ## UniversitiesPage: the merge of `fetchData` -/

namespace UniversitiesPage

/-- A JavaScript `Map` from strings to universities, as its entries in insertion order. -/
abbrev UniversityMap := List (String × University)

/-- The method `map.set(key, u)`: an existing key keeps its position and takes the new value. -/
def mapSet (m : UniversityMap) (key : String) (u : University) : UniversityMap :=
  if m.any (fun e => e.1 == key) then m.map (fun e => if e.1 = key then (key, u) else e)
  else m ++ [(key, u)]

/-- The method `map.has(key)`. -/
def mapHas (m : UniversityMap) (key : String) : Bool :=
  m.any (fun e => e.1 == key)

/-- The constant `professorUniversities` of `fetchData`:
`[...new Set(allProfessors.map(p => p.universityName).filter(Boolean))]`. -/
def professorUniversities (allProfessors : List Professor) : List String :=
  setSpread (filterBoolean (allProfessors.map (fun p => p.universityName)))

/-- The constant `universityMap` of `fetchData` after its `forEach` over `dbUniversities`. -/
def universityMap (toLowerCase : String → String) (dbUniversities : List University) :
    UniversityMap :=
  dbUniversities.foldl (fun m u => mapSet m (toLowerCase u.name) u) []

/-- The entry pushed onto `merged` for a university name known only from professor data. -/
def placeholder (uniName : String) : University :=
  { id := none
    name := uniName
    csFacultyWebsiteUrl := none
    mainWebsiteUrl := none
    ranking := none
    state := none
    greRequired := none
    deadline := none
    notes := none
    comments := none
    status := some "pending"
    fromProfessors := some true }

/-- The array `merged` that `fetchData` stores with `setAllUniversities`: a copy of
`dbUniversities`, onto which the `forEach` over `professorUniversities` pushes a placeholder
for every name whose lower-cased key the map does not have. -/
def merged (toLowerCase : String → String) (dbUniversities : List University)
    (allProfessors : List Professor) : List University :=
  (professorUniversities allProfessors).foldl
    (fun merged uniName =>
      if !mapHas (universityMap toLowerCase dbUniversities) (toLowerCase uniName) then
        merged ++ [placeholder uniName]
      else merged)
    dbUniversities

end UniversitiesPage

/-! ## SearchPage: `applyFilters` -/

namespace SearchPage

/-- The filter inputs of the search screen that `applyFilters` reads, with the initial values
of their `useState` calls. -/
structure FilterState where
  searchName : String := ""
  selectedUniversity : String := ""
  selectedResearchInterests : List String := []
  recruitingFilter : String := "all"
  mailedFilter : String := "all"
  hiringSemesterFilter : String := "all"
  deriving DecidableEq

/-- The callback of the name filter: `p.name && p.name.toLowerCase().includes(nameLower)`. -/
def nameCallback (toLowerCase : String → String) (searchName : String) (p : Professor) : Bool :=
  match p.name with
  | some n => n != "" && includes (toLowerCase n) (toLowerCase searchName)
  | none => false

/-- The callback of the university filter: `p.universityName === selectedUniversity`. -/
def universityCallback (selectedUniversity : String) (p : Professor) : Bool :=
  p.universityName == some selectedUniversity

/-- The constant `professorInterests` of the research-interest callback:
`p.researchInterests.split(',').map(ri => ri.trim().toLowerCase())`. -/
def professorInterests (toLowerCase : String → String) (researchInterests : String) :
    List String :=
  (split researchInterests ',').map (fun ri => toLowerCase (trim ri))

/-- The callback of the research-interest filter. -/
def researchCallback (toLowerCase : String → String) (selectedResearchInterests : List String)
    (p : Professor) : Bool :=
  match p.researchInterests with
  | some ri =>
    if ri == "" then false
    else
      selectedResearchInterests.any (fun selectedInterest =>
        (professorInterests toLowerCase ri).any (fun pi =>
          includes pi (toLowerCase selectedInterest)))
  | none => false

/-- The callback of the recruiting filter for `"yes"`. -/
def recruitingYesCallback (p : Professor) : Bool :=
  p.currentlyRecruiting == some "Yes" || p.recruitingPhdStudents == some "Yes"

/-- The callback of the recruiting filter for `"no"`. -/
def recruitingNoCallback (p : Professor) : Bool :=
  p.currentlyRecruiting != some "Yes" && p.recruitingPhdStudents != some "Yes"

/-- The callback of the hiring-semester filter. -/
def hiringCallback (hiringSemesterFilter : String) (p : Professor) : Bool :=
  if !truthy p.hiringSemester then false
  else if hiringSemesterFilter == "Both" then p.hiringSemester == some "Both"
  else p.hiringSemester == some hiringSemesterFilter || p.hiringSemester == some "Both"

/-- First block of `applyFilters`: `if (searchName.trim()) filtered = filtered.filter(...)`. -/
def nameStage (toLowerCase : String → String) (searchName : String)
    (filtered : List Professor) : List Professor :=
  if trim searchName != "" then filtered.filter (nameCallback toLowerCase searchName)
  else filtered

/-- Second block of `applyFilters`: `if (selectedUniversity) ...`. -/
def universityStage (selectedUniversity : String) (filtered : List Professor) :
    List Professor :=
  if selectedUniversity != "" then filtered.filter (universityCallback selectedUniversity)
  else filtered

/-- Third block of `applyFilters`: `if (selectedResearchInterests.length > 0) ...`. -/
def researchStage (toLowerCase : String → String) (selectedResearchInterests : List String)
    (filtered : List Professor) : List Professor :=
  if selectedResearchInterests.length > 0 then
    filtered.filter (researchCallback toLowerCase selectedResearchInterests)
  else filtered

/-- Fourth block of `applyFilters`: the recruiting filter. -/
def recruitingStage (recruitingFilter : String) (filtered : List Professor) : List Professor :=
  if recruitingFilter == "yes" then filtered.filter recruitingYesCallback
  else if recruitingFilter == "no" then filtered.filter recruitingNoCallback
  else filtered

/-- Fifth block of `applyFilters`: the mailed filter. -/
def mailedStage (mailedFilter : String) (filtered : List Professor) : List Professor :=
  if mailedFilter == "mailed" then filtered.filter (fun p => p.mailed == some true)
  else if mailedFilter == "not_mailed" then filtered.filter (fun p => p.mailed != some true)
  else filtered

/-- Sixth block of `applyFilters`: `if (hiringSemesterFilter !== 'all') ...`. -/
def hiringStage (hiringSemesterFilter : String) (filtered : List Professor) : List Professor :=
  if hiringSemesterFilter != "all" then filtered.filter (hiringCallback hiringSemesterFilter)
  else filtered

/-- The values of the `<option>` elements of the Hiring Semester select, the only values the
state `hiringSemesterFilter` is ever set to besides its initial `'all'`. -/
def hiringSemesterOptions : List String :=
  ["all", "Fall", "Spring", "Both"]

/-- The list `applyFilters` stores with `setFilteredProfessors`: a copy of the master list
`professors` passed through the six blocks in source order. -/
def applyFilters (toLowerCase : String → String) (fs : FilterState)
    (professors : List Professor) : List Professor :=
  let filtered := professors
  let filtered := nameStage toLowerCase fs.searchName filtered
  let filtered := universityStage fs.selectedUniversity filtered
  let filtered := researchStage toLowerCase fs.selectedResearchInterests filtered
  let filtered := recruitingStage fs.recruitingFilter filtered
  let filtered := mailedStage fs.mailedFilter filtered
  let filtered := hiringStage fs.hiringSemesterFilter filtered
  filtered

/-- The six blocks of `applyFilters` as list transformers, in source order. -/
def stages (toLowerCase : String → String) (fs : FilterState) :
    List (List Professor → List Professor) :=
  [nameStage toLowerCase fs.searchName,
   universityStage fs.selectedUniversity,
   researchStage toLowerCase fs.selectedResearchInterests,
   recruitingStage fs.recruitingFilter,
   mailedStage fs.mailedFilter,
   hiringStage fs.hiringSemesterFilter]

/-- Running a sequence of blocks from left to right on a list. -/
def runStages (ss : List (List Professor → List Professor)) (professors : List Professor) :
    List Professor :=
  ss.foldl (fun filtered stage => stage filtered) professors

/-- Name predicate of a record: the name block lets it through. -/
def passesName (toLowerCase : String → String) (fs : FilterState) (p : Professor) : Bool :=
  trim fs.searchName == "" || nameCallback toLowerCase fs.searchName p

/-- University predicate of a record: the university block lets it through. -/
def passesUniversity (fs : FilterState) (p : Professor) : Bool :=
  fs.selectedUniversity == "" || universityCallback fs.selectedUniversity p

/-- Research-interest predicate of a record: the research-interest block lets it through. -/
def passesResearch (toLowerCase : String → String) (fs : FilterState) (p : Professor) : Bool :=
  fs.selectedResearchInterests.length == 0 ||
    researchCallback toLowerCase fs.selectedResearchInterests p

/-- Recruiting predicate of a record: the recruiting block lets it through. -/
def passesRecruiting (fs : FilterState) (p : Professor) : Bool :=
  if fs.recruitingFilter == "yes" then recruitingYesCallback p
  else if fs.recruitingFilter == "no" then recruitingNoCallback p
  else true

/-- Mailed predicate of a record: the mailed block lets it through. -/
def passesMailed (fs : FilterState) (p : Professor) : Bool :=
  if fs.mailedFilter == "mailed" then p.mailed == some true
  else if fs.mailedFilter == "not_mailed" then p.mailed != some true
  else true

/-- Hiring-semester predicate of a record: the hiring-semester block lets it through. -/
def passesHiring (fs : FilterState) (p : Professor) : Bool :=
  fs.hiringSemesterFilter == "all" || hiringCallback fs.hiringSemesterFilter p

end SearchPage

/-! ## Further library primitives -/

/-- The method `l.slice(start, stop)`: negative indices count from the end, both indices are
clamped to the length. -/
def slice {α : Type} (l : List α) (start stop : Int) : List α :=
  let len : Int := l.length
  let k := if start < 0 then max (len + start) 0 else min start len
  let final := if stop < 0 then max (len + stop) 0 else min stop len
  (l.drop k.toNat).take (final - k).toNat

/-- The method `l.sort(compareFn)`: a stable sort, `a` stays before `b` when
`compareFn(a, b) <= 0`. For a consistent comparator its result is the list computed here by
insertion. -/
def sort {α : Type} (compareFn : α → α → Int) (l : List α) : List α :=
  l.insertionSort (fun a b => compareFn a b ≤ 0)

/-- The UTF-16 code units of a character: one unit below U+10000, a surrogate pair from there
on. -/
def utf16 (c : Char) : List Nat :=
  if c.toNat < 0x10000 then [c.toNat]
  else [0xD800 + (c.toNat - 0x10000) / 0x400, 0xDC00 + (c.toNat - 0x10000) % 0x400]

/-- The code units of a string, the elements a JavaScript string is compared by. -/
def codeUnits (s : String) : List Nat :=
  s.data.flatMap utf16

/-- The relational comparison of code-unit sequences: lexicographic by unit, a proper prefix
is smaller. -/
def unitsLt : List Nat → List Nat → Bool
  | _, [] => false
  | [], _ :: _ => true
  | a :: as, b :: bs =>
    if a < b then true
    else if b < a then false
    else unitsLt as bs

/-- The operator `s < t` on strings: the comparison of their UTF-16 code units. -/
def stringLt (s t : String) : Bool :=
  unitsLt (codeUnits s) (codeUnits t)

/-- The value of a character as a digit: `0` to `9`, then the letters of either case as 10
to 35. -/
def digitValue (c : Char) : Option Nat :=
  if 48 ≤ c.toNat ∧ c.toNat ≤ 57 then some (c.toNat - 48)
  else if 97 ≤ c.toNat ∧ c.toNat ≤ 122 then some (c.toNat - 87)
  else if 65 ≤ c.toNat ∧ c.toNat ≤ 90 then some (c.toNat - 55)
  else none

/-- The values of the longest leading run of digits of the radix. -/
def leadingDigits (radix : Nat) : List Char → List Nat
  | [] => []
  | c :: cs =>
    match digitValue c with
    | some d => if d < radix then d :: leadingDigits radix cs else []
    | none => []

/-- The function `parseInt(s)` without a radix argument: leading white space is skipped, a
sign is read, `0x` or `0X` selects radix 16, and the longest run of digits that follows is
the number read, whatever comes after it; `none` is `NaN`, the result when that run is empty.
The number is exact, as it is in JavaScript below 2^53. -/
def parseInt (s : String) : Option Int :=
  let trimmed := s.data.dropWhile isJsWhiteSpace
  let signed : Int × List Char :=
    match trimmed with
    | c :: r => if c = '-' then (-1, r) else if c = '+' then (1, r) else (1, trimmed)
    | [] => (1, [])
  let based : Nat × List Char :=
    match signed.2 with
    | c :: d :: r => if c = '0' ∧ (d = 'x' ∨ d = 'X') then (16, r) else (10, signed.2)
    | _ => (10, signed.2)
  match leadingDigits based.1 based.2 with
  | [] => none
  | v :: vs => some (signed.1 * (((v :: vs).foldl (fun acc w => acc * based.1 + w) 0 : Nat) : Int))

/-- The operator `a || b` on string-or-null values. -/
def orElse (a b : Option String) : Option String :=
  if truthy a then a else b

/-- What awaiting `apiClient.get(url)` gives: the request throws an error `err` (of which the
handlers read `err.response?.data?.error` and `err.message`), or it resolves to a response
whose `data` has a `success` flag and a list, which may be missing. -/
inductive Response (α : Type) where
  | threw (responseError : Option String) (message : Option String)
  | replied (success : Bool) (items : Option (List α))

/-- The message of a `catch` block:
`err.response?.data?.error || err.message || fallback`. -/
def catchMessage (responseError message : Option String) (fallback : String) :
    Option String :=
  orElse (orElse responseError message) (some fallback)

namespace SearchPage

/-! ## SearchPage: follow-up list, pagination and screen state -/

/-- The callback of the filter of `calculateNeedsFollowUp`; `parseDate` is the time value of
`new Date(s)` in milliseconds, `none` for an invalid date. -/
def needsFollowUpCallback (parseDate : String → Option Int) (sevenDaysAgo : Int)
    (p : Professor) : Bool :=
  if !(p.mailed == some true) || !truthy p.mailingDate then false
  else if p.followUpMailSent == some true then false
  else
    match p.mailingDate with
    | some s =>
      match parseDate s with
      | some mailingDate => decide (mailingDate ≤ sevenDaysAgo)
      | none => false
    | none => false

/-- The list `calculateNeedsFollowUp` stores with `setNeedsFollowUp`; `now` is the time value
of `new Date()`. -/
def calculateNeedsFollowUp (parseDate : String → Option Int) (now : Int)
    (professors : List Professor) : List Professor :=
  let sevenDaysAgo := now - 7 * 24 * 60 * 60 * 1000
  professors.filter (needsFollowUpCallback parseDate sevenDaysAgo)

/-- The constant `professorsPerPage`. -/
def professorsPerPage : Nat := 50

/-- The constant `totalPages`: `Math.ceil(filteredProfessors.length / professorsPerPage)`,
computed in exact rationals. -/
def totalPages (filteredProfessors : List Professor) : Int :=
  ⌈(filteredProfessors.length : ℚ) / (professorsPerPage : ℚ)⌉

/-- The constant `currentProfessors`:
`filteredProfessors.slice(startIndex, endIndex)`. -/
def currentProfessors (filteredProfessors : List Professor) (currentPage : Int) :
    List Professor :=
  let startIndex := (currentPage - 1) * professorsPerPage
  let endIndex := startIndex + professorsPerPage
  slice filteredProfessors startIndex endIndex

/-- The React state of the search screen that the list logic reads and writes. -/
structure ScreenState where
  professors : List Professor := []
  filteredProfessors : List Professor := []
  needsFollowUp : List Professor := []
  filters : FilterState := {}
  currentPage : Int := 1
  loading : Bool := true
  error : Option String := none

/-- The state at mount: the initial values of the `useState` calls. -/
def initialState : ScreenState := {}

/-- The function `fetchAllProfessors`, given what the request gave. -/
def fetchAllProfessors (response : Response Professor) (st : ScreenState) : ScreenState :=
  let st := { st with loading := true, error := none }
  match response with
  | .replied success professors =>
    if success then { st with professors := professors.getD [], loading := false }
    else { st with error := some "Failed to fetch professors", loading := false }
  | .threw responseError message =>
    { st with error := catchMessage responseError message "Error fetching professors",
              loading := false }

/-- The effect on `[professors, searchName, ...]`: `applyFilters()` (which stores the filtered
list and sets the page to 1) and `calculateNeedsFollowUp()`. -/
def filtersEffect (toLowerCase : String → String) (parseDate : String → Option Int)
    (now : Int) (st : ScreenState) : ScreenState :=
  { st with
    filteredProfessors := applyFilters toLowerCase st.filters st.professors
    currentPage := 1
    needsFollowUp := calculateNeedsFollowUp parseDate now st.professors }

/-- The `onChange` handler of the page-number input, as the new value of `currentPage`;
`parseInt` gives `none` for `NaN`. -/
def goToPage (parseInt : String → Option Int) (totalPages currentPage : Int)
    (value : String) : Int :=
  match parseInt value with
  | some page => if page ≥ 1 ∧ page ≤ totalPages then page else currentPage
  | none => currentPage

/-- What the user and the backend can do to the screen. A filter change and a reload carry
the time at which the effect then runs. The pagination controls exist only while
`totalPages > 1`, and a disabled button does nothing. -/
inductive Event where
  | filterChange (filters : FilterState) (now : Int)
  | reload (response : Response Professor) (now : Int)
  | previous
  | next
  | pageInput (value : String)

/-- One event on the screen state. -/
def step (toLowerCase : String → String) (parseDate : String → Option Int)
    (parseInt : String → Option Int) (st : ScreenState) : Event → ScreenState
  | .filterChange filters now =>
    filtersEffect toLowerCase parseDate now { st with filters := filters }
  | .reload response now =>
    match response with
    | .replied true _ =>
      filtersEffect toLowerCase parseDate now (fetchAllProfessors response st)
    | _ => fetchAllProfessors response st
  | .previous =>
    if totalPages st.filteredProfessors > 1 ∧ st.currentPage ≠ 1 then
      { st with currentPage := max 1 (st.currentPage - 1) }
    else st
  | .next =>
    if totalPages st.filteredProfessors > 1 ∧
        st.currentPage ≠ totalPages st.filteredProfessors then
      { st with currentPage := min (totalPages st.filteredProfessors) (st.currentPage + 1) }
    else st
  | .pageInput value =>
    if totalPages st.filteredProfessors > 1 then
      { st with currentPage :=
          goToPage parseInt (totalPages st.filteredProfessors) st.currentPage value }
    else st

/-- The state after a sequence of events from mount. -/
def run (toLowerCase : String → String) (parseDate : String → Option Int)
    (parseInt : String → Option Int) (events : List Event) : ScreenState :=
  events.foldl (step toLowerCase parseDate parseInt) initialState

end SearchPage

namespace UniversitiesPage

/-! ## UniversitiesPage: `applyFiltersAndSort` and the state of `fetchData` -/

/-- The filter and sort inputs of the roster screen, with the initial values of their
`useState` calls. -/
structure UniversityFilters where
  sortBy : String := "name"
  sortOrder : String := "asc"
  filterState : String := ""
  filterRankingMin : String := ""
  filterRankingMax : String := ""
  filterName : String := ""
  deriving DecidableEq

/-- The callback of the name filter: `u.name.toLowerCase().includes(filterName.toLowerCase())`. -/
def filterNameCallback (toLowerCase : String → String) (filterName : String)
    (u : University) : Bool :=
  includes (toLowerCase u.name) (toLowerCase filterName)

/-- The callback of the state filter:
`u.state && u.state.toLowerCase().includes(filterState.toLowerCase())`. -/
def filterStateCallback (toLowerCase : String → String) (filterState : String)
    (u : University) : Bool :=
  match u.state with
  | some s => s != "" && includes (toLowerCase s) (toLowerCase filterState)
  | none => false

/-- The callback of the minimum filter:
`u.ranking !== null && u.ranking !== undefined && u.ranking >= min`; `min` is `none` for
`NaN`, with which every comparison is false. -/
def rankingMinCallback (min : Option Int) (u : University) : Bool :=
  match u.ranking, min with
  | some r, some m => decide (r ≥ m)
  | _, _ => false

/-- The callback of the maximum filter:
`u.ranking !== null && u.ranking !== undefined && u.ranking <= max`. -/
def rankingMaxCallback (max : Option Int) (u : University) : Bool :=
  match u.ranking, max with
  | some r, some m => decide (r ≤ m)
  | _, _ => false

/-- The array `filtered` of `applyFiltersAndSort` after its four filter blocks. -/
def applyFiltersOnly (toLowerCase : String → String) (parseInt : String → Option Int)
    (f : UniversityFilters) (allUniversities : List University) : List University :=
  let filtered := allUniversities
  let filtered :=
    if f.filterName != "" then filtered.filter (filterNameCallback toLowerCase f.filterName)
    else filtered
  let filtered :=
    if f.filterState != "" then filtered.filter (filterStateCallback toLowerCase f.filterState)
    else filtered
  let filtered :=
    if f.filterRankingMin != "" then
      let min := parseInt f.filterRankingMin
      filtered.filter (rankingMinCallback min)
    else filtered
  let filtered :=
    if f.filterRankingMax != "" then
      let max := parseInt f.filterRankingMax
      filtered.filter (rankingMaxCallback max)
    else filtered
  filtered

/-- The ranking sort value:
`a.ranking !== null && a.ranking !== undefined ? a.ranking : 9999`. -/
def rankingValue (u : University) : Int :=
  match u.ranking with
  | some r => r
  | none => 9999

/-- The name sort value: `(a.name || '').toLowerCase()`. -/
def nameValue (toLowerCase : String → String) (u : University) : String :=
  toLowerCase u.name

/-- The result of the comparator from the two sort values, `lt` being the operator `<` on
them: for `'asc'` it is `aVal < bVal ? -1 : aVal > bVal ? 1 : 0`, otherwise
`aVal > bVal ? -1 : aVal < bVal ? 1 : 0`. -/
def compareValues {β : Type} (lt : β → β → Bool) (sortOrder : String) (aVal bVal : β) : Int :=
  if sortOrder == "asc" then
    if lt aVal bVal then -1 else if lt bVal aVal then 1 else 0
  else
    if lt bVal aVal then -1 else if lt aVal bVal then 1 else 0

/-- The comparator passed to `filtered.sort`. -/
def compareFn (toLowerCase : String → String) (f : UniversityFilters) (a b : University) :
    Int :=
  if f.sortBy == "ranking" then
    compareValues (fun x y : Int => decide (x < y)) f.sortOrder (rankingValue a) (rankingValue b)
  else
    compareValues stringLt f.sortOrder (nameValue toLowerCase a) (nameValue toLowerCase b)

/-- The list `applyFiltersAndSort` stores with `setUniversities`. -/
def applyFiltersAndSort (toLowerCase : String → String) (parseInt : String → Option Int)
    (f : UniversityFilters) (allUniversities : List University) : List University :=
  sort (compareFn toLowerCase f) (applyFiltersOnly toLowerCase parseInt f allUniversities)

/-- The React state of the roster screen that `fetchData` writes. -/
structure RosterState where
  universities : List University := []
  allUniversities : List University := []
  professors : List Professor := []
  loading : Bool := true
  error : Option String := none

/-- The function `fetchData`, given what its two requests gave; the second request is only
made when the first did not throw. -/
def fetchData (toLowerCase : String → String) (uniResponse : Response University)
    (profResponse : Response Professor) (st : RosterState) : RosterState :=
  let st := { st with loading := true, error := none }
  match uniResponse with
  | .threw responseError message =>
    { st with error := catchMessage responseError message "Error fetching data",
              loading := false }
  | .replied uniSuccess universities =>
    let dbUniversities := if uniSuccess then universities.getD [] else []
    match profResponse with
    | .threw responseError message =>
      { st with error := catchMessage responseError message "Error fetching data",
                loading := false }
    | .replied profSuccess professors =>
      let allProfessors := if profSuccess then professors.getD [] else []
      { st with
        professors := allProfessors
        allUniversities := merged toLowerCase dbUniversities allProfessors
        universities := merged toLowerCase dbUniversities allProfessors
        loading := false }

end UniversitiesPage

/-! ## Forms, payloads and requests -/

/-- A JavaScript value of a form field or of a payload key; `undefined` is also the value of
an absent key. -/
inductive JsValue where
  | undefined
  | null
  | bool (b : Bool)
  | num (n : Int)
  | str (s : String)
  deriving DecidableEq

/-- JavaScript truthiness of a value. -/
def JsValue.truthy : JsValue → Bool
  | .undefined => false
  | .null => false
  | .bool b => b
  | .num n => n != 0
  | .str s => s != ""

/-- A professor object with JavaScript-valued keys: `editingProfessor` of the edit form,
`newProfessor` of the add form, and the `updates` payload of a `PUT` request. -/
structure ProfessorForm where
  id : JsValue := .undefined
  name : JsValue := .undefined
  email : JsValue := .undefined
  universityName : JsValue := .undefined
  designation : JsValue := .undefined
  portfolioWebsite : JsValue := .undefined
  sourceUrl : JsValue := .undefined
  labWebsite : JsValue := .undefined
  researchInterests : JsValue := .undefined
  googleScholarUrl : JsValue := .undefined
  recruitingPhdStudents : JsValue := .undefined
  currentlyRecruiting : JsValue := .undefined
  hiringSemester : JsValue := .undefined
  mailed : JsValue := .undefined
  mailingDate : JsValue := .undefined
  followUpMailSent : JsValue := .undefined
  followUpMailDate : JsValue := .undefined
  comments : JsValue := .undefined
  priority : JsValue := .undefined
  deadline : JsValue := .undefined
  greRequired : JsValue := .undefined
  deriving DecidableEq

/-- A request to the backend: `GET /professor/all`, `PUT /professor/{id}` with a payload,
`DELETE /professor/{id}`, `GET /user/profile`. -/
inductive Request where
  | getProfessors
  | putProfessor (id : JsValue) (updates : ProfessorForm)
  | deleteProfessor (id : JsValue)
  | getProfile
  deriving DecidableEq

/-- The browser state the client code writes: two `localStorage` items and
`window.location.href`. -/
structure Browser where
  authToken : Option String := none
  userRole : Option String := none
  href : String := ""
  deriving DecidableEq

/-- The error of a rejected request, as far as the client code reads it:
`error.response?.status`, `err.response?.data?.error` and `err.message`. -/
structure AxiosError where
  status : Option Nat := none
  responseError : Option String := none
  message : Option String := none
  deriving DecidableEq

/-- The rejection handler of the response interceptor of `apiClient` (`axiosConfig.js`), as
its effect on the browser; it then rejects with the same error. -/
def responseErrorInterceptor (error : AxiosError) (b : Browser) : Browser :=
  if error.status == some 401 then { b with authToken := none, href := "#/login" } else b

/-- The default comparator of `l.sort()` on strings. -/
def defaultCompare (a b : String) : Int :=
  if stringLt a b then -1 else if stringLt b a then 1 else 0

namespace SearchPage

/-! ## SearchPage: edit form, save, delete and the research-interest dropdown -/

/-- The object `updates` that `handleSave` builds from `editingProfessor`. A key guarded by
`if (editingProfessor.k !== undefined) updates.k = editingProfessor.k` has the value of the
form field, absent when that is `undefined`. -/
def handleSaveUpdates (editingProfessor : ProfessorForm) : ProfessorForm :=
  { name := editingProfessor.name
    email := editingProfessor.email
    universityName := editingProfessor.universityName
    designation := editingProfessor.designation
    portfolioWebsite := editingProfessor.portfolioWebsite
    labWebsite := editingProfessor.labWebsite
    researchInterests := editingProfessor.researchInterests
    googleScholarUrl := editingProfessor.googleScholarUrl
    recruitingPhdStudents := editingProfessor.recruitingPhdStudents
    currentlyRecruiting := editingProfessor.currentlyRecruiting
    hiringSemester := editingProfessor.hiringSemester
    mailed :=
      if editingProfessor.mailed != .undefined && editingProfessor.mailed != .null then
        .bool (editingProfessor.mailed == .bool true || editingProfessor.mailed == .str "true")
      else .undefined
    mailingDate :=
      if editingProfessor.mailed.truthy then
        if editingProfessor.mailingDate.truthy && editingProfessor.mailingDate != .str "" then
          editingProfessor.mailingDate
        else .undefined
      else if editingProfessor.mailed == .bool false then .null
      else .undefined
    followUpMailSent :=
      if editingProfessor.followUpMailSent != .undefined &&
          editingProfessor.followUpMailSent != .null then
        .bool (editingProfessor.followUpMailSent == .bool true ||
          editingProfessor.followUpMailSent == .str "true")
      else .undefined
    followUpMailDate :=
      if editingProfessor.followUpMailSent.truthy then
        if editingProfessor.followUpMailDate.truthy &&
            editingProfessor.followUpMailDate != .str "" then
          editingProfessor.followUpMailDate
        else .undefined
      else if editingProfessor.followUpMailSent == .bool false then .null
      else .undefined
    comments := editingProfessor.comments
    priority := editingProfessor.priority
    deadline := editingProfessor.deadline
    greRequired := editingProfessor.greRequired }

/-- The requests `handleSave` sends; `putResolves` tells whether the `PUT` resolves, after
which `fetchAllProfessors` runs. -/
def handleSave (canEdit : Bool) (editingProfessor : ProfessorForm) (putResolves : Bool) :
    List Request :=
  if !canEdit then []
  else
    [.putProfessor editingProfessor.id (handleSaveUpdates editingProfessor)] ++
      (if putResolves then [.getProfessors] else [])

/-- The requests `handleDeleteProfessor` sends; `reply` is `none` when the `DELETE` throws
and otherwise the `success` flag of the response. -/
def handleDeleteProfessor (canEdit : Bool) (id : JsValue) (reply : Option Bool) :
    List Request :=
  if !canEdit then []
  else [.deleteProfessor id] ++ (if reply == some true then [.getProfessors] else [])

/-- The requests the `onClick` handler of the priority star of a card sends:
`apiClient.put('/professor/' + professor.id, { priority: !professor.priority })`, then
`fetchAllProfessors` when the `PUT` resolves. -/
def priorityClick (professor : Professor) (putResolves : Bool) : List Request :=
  [.putProfessor (.num professor.id)
      { priority := .bool (!(professor.priority == some true)) }] ++
    (if putResolves then [.getProfessors] else [])

/-- The `onChange` handler of the Mailed checkbox of the edit form; `nowText` is the local
time formatted as `YYYY-MM-DDTHH:mm`. -/
def onMailedChange (editingProfessor : ProfessorForm) (checked : Bool) (nowText : String) :
    ProfessorForm :=
  if checked then { editingProfessor with mailed := .bool true, mailingDate := .str nowText }
  else { editingProfessor with mailed := .bool false, mailingDate := .null }

/-- The `onChange` handler of the mailing-date input: `mailingDate: e.target.value || null`. -/
def onMailingDateChange (editingProfessor : ProfessorForm) (value : String) : ProfessorForm :=
  { editingProfessor with mailingDate := if value != "" then .str value else .null }

/-- The `onChange` handler of the Follow-up Mail Sent checkbox of the edit form. -/
def onFollowUpMailSentChange (editingProfessor : ProfessorForm) (checked : Bool)
    (nowText : String) : ProfessorForm :=
  if checked then
    { editingProfessor with followUpMailSent := .bool true, followUpMailDate := .str nowText }
  else { editingProfessor with followUpMailSent := .bool false, followUpMailDate := .null }

/-- The `onChange` handler of the follow-up date input. -/
def onFollowUpMailDateChange (editingProfessor : ProfessorForm) (value : String) :
    ProfessorForm :=
  { editingProfessor with followUpMailDate := if value != "" then .str value else .null }

/-- The `onChange` handler of the Recruiting PhD Students select of the edit form. -/
def onRecruitingPhdStudentsChange (editingProfessor : ProfessorForm) (value : String) :
    ProfessorForm :=
  let updates := { editingProfessor with recruitingPhdStudents := .str value }
  if value == "Yes" then { updates with currentlyRecruiting := .str "Yes" } else updates

/-- The `onChange` handler of the Recruiting PhD Students select of the add form. -/
def onNewRecruitingPhdStudentsChange (newProfessor : ProfessorForm) (value : String) :
    ProfessorForm :=
  let updates := { newProfessor with recruitingPhdStudents := .str value }
  if value == "Yes" then { updates with currentlyRecruiting := .str "Yes" } else updates

/-- A rejected `GET /professor/all`: the interceptor acts on the browser, then the `catch`
block of `fetchAllProfessors` acts on the screen. -/
def fetchAllProfessorsRejected (error : AxiosError) (b : Browser) (st : ScreenState) :
    Browser × ScreenState :=
  (responseErrorInterceptor error b,
   fetchAllProfessors (.threw error.responseError error.message) st)

/-- The constant `researchInterests`: the options of the research-interest dropdown. -/
def researchInterests (professors : List Professor) : List String :=
  sort defaultCompare
    (setSpread
      (((filterBoolean (professors.map (fun p => p.researchInterests))).flatMap
        (fun ri => (split ri ',').map (fun s => trim s))).filter (fun s => s != "")))

/-- The updater of `toggleResearchInterest`, from the previous selection to the next. -/
def toggleResearchInterest (prev : List String) (interest : String) : List String :=
  if prev.contains interest then prev.filter (fun i => i != interest)
  else prev ++ [interest]

end SearchPage

namespace TaskListPage

/-! ## TaskListPage: `sortedProfessors` -/

/-- The comparator of `sortedProfessors`. `parseDate` is the time value of `new Date(s)`,
`none` for an invalid date; the difference of two dates is `NaN` when one is invalid, which
`sort` takes as 0. `localeCompare` is the library's string collation. -/
def compareFn (parseDate : String → Option Int) (localeCompare : String → String → Int)
    (a b : Professor) : Int :=
  if truthy a.deadline && !truthy b.deadline then -1
  else if !truthy a.deadline && truthy b.deadline then 1
  else if truthy a.deadline && truthy b.deadline then
    match a.deadline.bind parseDate, b.deadline.bind parseDate with
    | some x, some y => x - y
    | _, _ => 0
  else localeCompare (a.name.getD "") (b.name.getD "")

/-- The constant `sortedProfessors`: `[...priorityProfessors].sort(...)`. -/
def sortedProfessors (parseDate : String → Option Int)
    (localeCompare : String → String → Int) (priorityProfessors : List Professor) :
    List Professor :=
  sort (compareFn parseDate localeCompare) priorityProfessors

end TaskListPage

namespace UserPermissions

/-! ## useUserPermissions -/

/-- The state `permissions` of the hook. -/
structure Permissions where
  canAddProfessors : Bool := false
  canUseAISearch : Bool := false
  canEdit : Bool := false
  canView : Bool := false
  loading : Bool := true
  deriving DecidableEq

/-- The permission flags of `response.data.user`, each possibly missing. -/
structure UserProfile where
  canAddProfessors : Option Bool := none
  canUseAISearch : Option Bool := none
  canEdit : Option Bool := none
  canView : Option Bool := none
  deriving DecidableEq

/-- What `apiClient.get('/user/profile')` gives: it rejects, or it resolves with a `success`
flag and a `user`, which may be missing. -/
inductive ProfileReply where
  | threw
  | replied (success : Bool) (user : Option UserProfile)
  deriving DecidableEq

/-- What the hook yields once its effect has run: the permissions, the role and the requests
it sent. -/
structure HookResult where
  permissions : Permissions
  userRole : String
  requests : List Request
  deriving DecidableEq

/-- The expression `localStorage.getItem('userRole') || 'admin'`, also used by `AppContent`. -/
def roleOrAdmin (b : Browser) : String :=
  match b.userRole with
  | some role => if role != "" then role else "admin"
  | none => "admin"

/-- The hook `useUserPermissions` after its effect. -/
def useUserPermissions (b : Browser) (reply : ProfileReply) : HookResult :=
  let role := roleOrAdmin b
  if role == "admin" then
    { permissions :=
        { canAddProfessors := true, canUseAISearch := true, canEdit := true, canView := true,
          loading := false }
      userRole := role
      requests := [] }
  else if role == "user" then
    { permissions :=
        match reply with
        | .replied true (some user) =>
          { canAddProfessors := user.canAddProfessors == some true
            canUseAISearch := user.canUseAISearch == some true
            canEdit := user.canEdit == some true
            canView := user.canView == some true
            loading := false }
        | .replied _ _ => {}
        | .threw =>
          { canAddProfessors := false, canUseAISearch := false, canEdit := false,
            canView := false, loading := false }
      userRole := role
      requests := [.getProfile] }
  else
    { permissions :=
        { canAddProfessors := false, canUseAISearch := false, canEdit := false, canView := true,
          loading := false }
      userRole := role
      requests := [] }

end UserPermissions

end ProfessorSearch

namespace ProfessorSearch

/-! ## Facts about the library primitives -/

theorem includes_iff (s t : String) : includes s t = true ↔ t.data <:+: s.data := by
  unfold includes
  simp only [List.any_eq_true, List.mem_tails, List.isPrefixOf_iff_prefix]
  constructor
  · rintro ⟨u, hu, hp⟩
    exact hp.isInfix.trans hu.isInfix
  · intro h
    obtain ⟨u, hp, hs⟩ := List.infix_iff_prefix_suffix.mp h
    exact ⟨u, hs, hp⟩

theorem foldl_setAdd (xs : List String) :
    ∀ acc : List String,
      xs.foldl setAdd acc = acc ++ (xs.foldl setAdd []).filter (fun s => decide (s ∉ acc)) := by
  induction xs with
  | nil => intro acc; simp
  | cons x xs ih =>
    intro acc
    simp only [List.foldl_cons]
    rw [ih (setAdd acc x), ih (setAdd [] x)]
    by_cases hx : x ∈ acc
    · simp only [setAdd, hx, if_true, List.not_mem_nil, if_false, List.nil_append,
        List.filter_append, List.filter_filter]
      have h1 : List.filter (fun s => decide (s ∉ acc)) [x] = [] := by simp [hx]
      rw [h1, List.nil_append]
      congr 1
      apply List.filter_congr
      intro s _
      by_cases hs : s ∈ acc
      · simp [hs]
      · have : s ≠ x := fun h => hs (h ▸ hx)
        simp [hs, this]
    · simp only [setAdd, hx, if_false, List.not_mem_nil, List.nil_append,
        List.filter_append, List.filter_filter, List.append_assoc]
      have h1 : List.filter (fun s => decide (s ∉ acc)) [x] = [x] := by simp [hx]
      rw [h1]
      congr 2
      apply List.filter_congr
      intro s _
      by_cases hs : s ∈ acc <;> by_cases hsx : s = x <;> simp [hs, hsx]

theorem setSpread_cons (x : String) (xs : List String) :
    setSpread (x :: xs) = x :: (setSpread xs).filter (fun s => decide (s ≠ x)) := by
  unfold setSpread
  rw [List.foldl_cons, foldl_setAdd]
  simp [setAdd]

theorem mem_setSpread (xs : List String) (s : String) : s ∈ setSpread xs ↔ s ∈ xs := by
  induction xs with
  | nil => simp [setSpread]
  | cons x xs ih =>
    rw [setSpread_cons]
    by_cases h : s = x <;> simp [h, ih]

theorem nodup_setSpread (xs : List String) : (setSpread xs).Nodup := by
  induction xs with
  | nil => simp [setSpread]
  | cons x xs ih =>
    rw [setSpread_cons]
    exact List.nodup_cons.mpr ⟨by simp, ih.filter _⟩

theorem mem_filterBoolean (ys : List (Option String)) (s : String) :
    s ∈ filterBoolean ys ↔ s ≠ "" ∧ some s ∈ ys := by
  unfold filterBoolean
  rw [List.mem_filterMap]
  constructor
  · rintro ⟨o, ho, h⟩
    cases o with
    | none => simp [truthy] at h
    | some t =>
      by_cases ht : t = ""
      · simp [truthy, ht] at h
      · simp [truthy, ht] at h
        subst h
        exact ⟨ht, ho⟩
  · rintro ⟨hs, hm⟩
    exact ⟨some s, hm, by simp [truthy, hs]⟩

theorem filterBoolean_cons (y : Option String) (ys : List (Option String)) :
    filterBoolean (y :: ys) =
      match y with
      | some s => if s = "" then filterBoolean ys else s :: filterBoolean ys
      | none => filterBoolean ys := by
  cases y with
  | none => simp [filterBoolean, truthy]
  | some s => by_cases hs : s = "" <;> simp [filterBoolean, truthy, hs]

theorem indexOf_cons_option (y o : Option String) (ys : List (Option String)) :
    (y :: ys).indexOf o = if y = o then 0 else ys.indexOf o + 1 := by
  rw [List.indexOf_cons]
  by_cases h : y = o
  · subst h
    simp
  · have hb : (y == o) = false := by
      cases y <;> cases o <;> simp_all
    simp [hb, h]

/-- The distinct names of `[...new Set(ys.filter(Boolean))]` are listed by first occurrence
in `ys`. -/
theorem pairwise_setSpread_filterBoolean (ys : List (Option String)) :
    (setSpread (filterBoolean ys)).Pairwise
      (fun a b => ys.indexOf (some a) < ys.indexOf (some b)) := by
  induction ys with
  | nil => simp [filterBoolean, setSpread]
  | cons y ys ih =>
    have lift : ∀ a b : String, y ≠ some a → y ≠ some b →
        ys.indexOf (some a) < ys.indexOf (some b) →
        (y :: ys).indexOf (some a) < (y :: ys).indexOf (some b) := by
      intro a b ha hb h
      rw [indexOf_cons_option, indexOf_cons_option, if_neg ha, if_neg hb]
      exact Nat.succ_lt_succ h
    have falsy : (∀ s ∈ setSpread (filterBoolean ys), y ≠ some s) →
        (setSpread (filterBoolean ys)).Pairwise
          (fun a b => (y :: ys).indexOf (some a) < (y :: ys).indexOf (some b)) := by
      intro hne
      exact ih.imp_of_mem (fun {a b} ha hb h => lift a b (hne a ha) (hne b hb) h)
    rw [filterBoolean_cons]
    cases y with
    | none => exact falsy (fun s _ => by simp)
    | some x =>
      by_cases hx : x = ""
      · subst hx
        simp only [if_true]
        refine falsy (fun s hs => ?_)
        have := ((mem_filterBoolean ys s).mp ((mem_setSpread _ s).mp hs)).1
        intro h
        injection h with h
        exact this h.symm
      · simp only [hx, if_false]
        rw [setSpread_cons, List.pairwise_cons]
        constructor
        · intro b hb
          have hbx : b ≠ x := by simpa using (List.mem_filter.mp hb).2
          have hne : some x ≠ some b := by
            intro h; injection h with h; exact hbx h.symm
          rw [indexOf_cons_option, indexOf_cons_option, if_pos rfl, if_neg hne]
          exact Nat.succ_pos _
        · refine (ih.sublist (List.filter_sublist _)).imp_of_mem (fun {a b} ha hb h => ?_)
          have hax : a ≠ x := by simpa using (List.mem_filter.mp ha).2
          have hbx : b ≠ x := by simpa using (List.mem_filter.mp hb).2
          exact lift a b (by intro h; injection h with h; exact hax h.symm)
            (by intro h; injection h with h; exact hbx h.symm) h

end ProfessorSearch

namespace ProfessorSearch.UniversitiesPage

/-! ## The merge of `fetchData` -/

theorem mapHas_mapSet (m : UniversityMap) (k k' : String) (u : University) :
    mapHas (mapSet m k u) k' = true ↔ mapHas m k' = true ∨ k = k' := by
  unfold mapHas mapSet
  split_ifs with h
  · simp only [List.any_eq_true, beq_iff_eq, List.mem_map] at h ⊢
    obtain ⟨e0, he0, hk0⟩ := h
    constructor
    · rintro ⟨e, ⟨e', he', rfl⟩, hk⟩
      by_cases hc : e'.1 = k
      · right
        simpa [hc] using hk
      · left
        exact ⟨e', he', by simpa [hc] using hk⟩
    · rintro (⟨e, he, hk⟩ | rfl)
      · by_cases hc : e.1 = k
        · exact ⟨(k, u), ⟨e, he, by simp [hc]⟩, by rw [← hk, hc]⟩
        · exact ⟨e, ⟨e, he, by simp [hc]⟩, hk⟩
      · exact ⟨(k, u), ⟨e0, he0, by simp [hk0]⟩, rfl⟩
  · simp [List.any_append]

theorem mapHas_foldl (toLowerCase : String → String) (db : List University) (k : String) :
    ∀ acc : UniversityMap,
      mapHas (db.foldl (fun m u => mapSet m (toLowerCase u.name) u) acc) k = true ↔
        mapHas acc k = true ∨ ∃ u ∈ db, toLowerCase u.name = k := by
  induction db with
  | nil => intro acc; simp
  | cons v db ih =>
    intro acc
    rw [List.foldl_cons, ih, mapHas_mapSet]
    simp only [List.mem_cons, exists_eq_or_imp, or_assoc]

theorem mapHas_universityMap (toLowerCase : String → String) (db : List University)
    (k : String) :
    mapHas (universityMap toLowerCase db) k = true ↔ ∃ u ∈ db, toLowerCase u.name = k := by
  unfold universityMap
  rw [mapHas_foldl]
  simp [mapHas]

theorem foldl_push (absent : String → Bool) (ns : List String) :
    ∀ acc : List University,
      ns.foldl (fun merged uniName =>
          if absent uniName then merged ++ [placeholder uniName] else merged) acc =
        acc ++ (ns.filter absent).map placeholder := by
  induction ns with
  | nil => intro acc; simp
  | cons n ns ih =>
    intro acc
    rw [List.foldl_cons, ih]
    by_cases h : absent n = true <;> simp [h, List.filter_cons]

/-- The merged roster is the persisted list followed by one placeholder for every inferred
name whose lower-cased key is not in the map. -/
theorem merged_eq_append (toLowerCase : String → String) (db : List University)
    (profs : List Professor) :
    merged toLowerCase db profs =
      db ++ ((professorUniversities profs).filter
        (fun n => !mapHas (universityMap toLowerCase db) (toLowerCase n))).map placeholder := by
  unfold merged
  exact foldl_push (fun n => !mapHas (universityMap toLowerCase db) (toLowerCase n)) _ db

theorem absent_iff (toLowerCase : String → String) (db : List University) (n : String) :
    (!mapHas (universityMap toLowerCase db) (toLowerCase n)) = true ↔
      ∀ v ∈ db, toLowerCase v.name ≠ toLowerCase n := by
  rw [Bool.not_eq_true', ← Bool.not_eq_true, mapHas_universityMap]
  simp

theorem mem_professorUniversities (profs : List Professor) (s : String) :
    s ∈ professorUniversities profs ↔ s ≠ "" ∧ ∃ p ∈ profs, p.universityName = some s := by
  unfold professorUniversities
  rw [mem_setSpread, mem_filterBoolean]
  simp [List.mem_map]

/-- C1, refuted as stated: the merged roster can hold two entries whose names are equal after
lower-casing. Two persisted universities `MIT` and `mit` are both kept, and two professors
at `Stanford` and `stanford` give two placeholders. -/
theorem merged_ci_duplicates :
    ¬ ((merged asciiToLowerCase
          [{ id := some 1, name := "MIT" }, { id := some 2, name := "mit" }] []).map
        (fun u => asciiToLowerCase u.name)).Nodup ∧
    ¬ ((merged asciiToLowerCase []
          [{ universityName := some "Stanford" }, { universityName := some "stanford" }]).map
        (fun u => asciiToLowerCase u.name)).Nodup := by
  decide

/-- C1, amended: when no two persisted universities have names equal after lower-casing and
no two distinct inferred names are equal after lower-casing, the merged roster contains no
two entries whose names are equal after lower-casing. -/
theorem merged_ci_nodup (toLowerCase : String → String) (db : List University)
    (profs : List Professor)
    (hdb : (db.map (fun u => toLowerCase u.name)).Nodup)
    (hprofs : ∀ a ∈ professorUniversities profs, ∀ b ∈ professorUniversities profs,
      toLowerCase a = toLowerCase b → a = b) :
    ((merged toLowerCase db profs).map (fun u => toLowerCase u.name)).Nodup := by
  rw [merged_eq_append, List.map_append, List.map_map]
  refine List.Nodup.append hdb ?_ ?_
  · have hnd : ((professorUniversities profs).filter
        (fun n => !mapHas (universityMap toLowerCase db) (toLowerCase n))).Nodup :=
      (nodup_setSpread _).filter _
    refine List.Nodup.map_on ?_ hnd
    intro a ha b hb hab
    exact hprofs a (List.mem_filter.mp ha).1 b (List.mem_filter.mp hb).1 hab
  · intro k hk1 hk2
    obtain ⟨v, hv, rfl⟩ := List.mem_map.mp hk1
    obtain ⟨n, hn, hnk⟩ := List.mem_map.mp hk2
    have habs := (absent_iff toLowerCase db n).mp (List.mem_filter.mp hn).2
    exact habs v hv hnk.symm

/-- C1, amended, at the spec's scenario. -/
theorem merged_ci_nodup_witness :
    ((merged asciiToLowerCase [{ id := some 1, name := "MIT" }]
        [{ universityName := some "MIT" }, { universityName := some "Stanford" }]).map
      (fun u => asciiToLowerCase u.name)).Nodup :=
  merged_ci_nodup asciiToLowerCase [{ id := some 1, name := "MIT" }]
    [{ universityName := some "MIT" }, { universityName := some "Stanford" }]
    (by decide) (by decide)

/-- C2: the merged roster is the persisted list, unchanged and in its order, followed by
placeholders whose names are listed in the order of their first occurrence among the
professors' `universityName` values; and the spec's scenario with persisted `MIT` and
professors at `MIT` and `Stanford` gives exactly `MIT` with id 1, then the `Stanford`
placeholder. -/
theorem merged_persisted_then_placeholders (toLowerCase : String → String)
    (db : List University) (profs : List Professor) :
    (∃ names : List String,
      merged toLowerCase db profs =
        db ++ names.map (fun n =>
          ({ id := none, name := n, status := some "pending",
             fromProfessors := some true } : University)) ∧
      (∀ n ∈ names, some n ∈ profs.map (fun p => p.universityName)) ∧
      names.Pairwise (fun a b =>
        (profs.map (fun p => p.universityName)).indexOf (some a) <
          (profs.map (fun p => p.universityName)).indexOf (some b))) ∧
    merged asciiToLowerCase [{ id := some 1, name := "MIT" }]
        [{ universityName := some "MIT" }, { universityName := some "Stanford" }] =
      [{ id := some 1, name := "MIT" },
       { id := none, name := "Stanford", status := some "pending",
         fromProfessors := some true }] := by
  refine ⟨⟨(professorUniversities profs).filter
      (fun n => !mapHas (universityMap toLowerCase db) (toLowerCase n)),
    merged_eq_append toLowerCase db profs, ?_, ?_⟩, by decide⟩
  · intro n hn
    obtain ⟨_, q, hq, hqn⟩ := (mem_professorUniversities profs n).mp (List.mem_filter.mp hn).1
    exact List.mem_map.mpr ⟨q, hq, hqn⟩
  · exact (pairwise_setSpread_filterBoolean _).sublist (List.filter_sublist _)

/-- C3: the inferred names are the distinct non-empty `universityName` values of the
professors; the entries of the merged roster after the persisted ones are exactly the
placeholders of the inferred names that no persisted university matches after lower-casing,
one for each such name; and a placeholder has `id` null, status `"pending"`,
`fromProfessors` true and every other field besides its name null. -/
theorem placeholder_iff_absent (toLowerCase : String → String) (db : List University)
    (profs : List Professor) :
    (professorUniversities profs).Nodup ∧
    (∀ s, s ∈ professorUniversities profs ↔
      s ≠ "" ∧ ∃ p ∈ profs, p.universityName = some s) ∧
    (∀ u, u ∈ (merged toLowerCase db profs).drop db.length ↔
      ∃ n ∈ professorUniversities profs,
        (∀ v ∈ db, toLowerCase v.name ≠ toLowerCase n) ∧
        u = { id := none, name := n, csFacultyWebsiteUrl := none, mainWebsiteUrl := none,
              ranking := none, state := none, greRequired := none, deadline := none,
              notes := none, comments := none, status := some "pending",
              fromProfessors := some true }) ∧
    (((merged toLowerCase db profs).drop db.length).map (fun u => u.name)).Nodup := by
  have hdrop : (merged toLowerCase db profs).drop db.length =
      ((professorUniversities profs).filter
        (fun n => !mapHas (universityMap toLowerCase db) (toLowerCase n))).map placeholder := by
    rw [merged_eq_append, List.drop_left]
  refine ⟨nodup_setSpread _, mem_professorUniversities profs, ?_, ?_⟩
  · intro u
    rw [hdrop, List.mem_map]
    constructor
    · rintro ⟨n, hn, rfl⟩
      obtain ⟨hn1, hn2⟩ := List.mem_filter.mp hn
      exact ⟨n, hn1, (absent_iff toLowerCase db n).mp hn2, rfl⟩
    · rintro ⟨n, hn1, hn2, rfl⟩
      exact ⟨n, List.mem_filter.mpr ⟨hn1, (absent_iff toLowerCase db n).mpr hn2⟩, rfl⟩
  · rw [hdrop, List.map_map]
    have hid : ((fun u : University => u.name) ∘ placeholder) = id := by
      funext n
      rfl
    rw [hid, List.map_id]
    exact (nodup_setSpread _).filter _

end ProfessorSearch.UniversitiesPage

namespace ProfessorSearch.SearchPage

/-! ## The blocks of `applyFilters` as filters -/

theorem nameStage_eq_filter (toLowerCase : String → String) (fs : FilterState)
    (l : List Professor) :
    nameStage toLowerCase fs.searchName l = l.filter (passesName toLowerCase fs) := by
  unfold nameStage passesName
  by_cases h : trim fs.searchName = ""
  · simp [h]
  · have hb : (trim fs.searchName == "") = false := beq_false_of_ne h
    simp [h, hb]

theorem universityStage_eq_filter (fs : FilterState) (l : List Professor) :
    universityStage fs.selectedUniversity l = l.filter (passesUniversity fs) := by
  unfold universityStage passesUniversity
  by_cases h : fs.selectedUniversity = ""
  · simp [h]
  · have hb : (fs.selectedUniversity == "") = false := beq_false_of_ne h
    simp [h, hb]

theorem researchStage_eq_filter (toLowerCase : String → String) (fs : FilterState)
    (l : List Professor) :
    researchStage toLowerCase fs.selectedResearchInterests l =
      l.filter (passesResearch toLowerCase fs) := by
  unfold researchStage passesResearch
  by_cases h : fs.selectedResearchInterests = []
  · simp [h]
  · have hpos : fs.selectedResearchInterests.length > 0 := List.length_pos.mpr h
    have hb : (fs.selectedResearchInterests.length == 0) = false :=
      beq_false_of_ne (Nat.pos_iff_ne_zero.mp hpos)
    simp [hpos, hb]

theorem recruitingStage_eq_filter (fs : FilterState) (l : List Professor) :
    recruitingStage fs.recruitingFilter l = l.filter (passesRecruiting fs) := by
  unfold recruitingStage passesRecruiting
  by_cases h1 : fs.recruitingFilter = "yes"
  · simp [h1]
  · by_cases h2 : fs.recruitingFilter = "no" <;> simp [h1, h2]

theorem mailedStage_eq_filter (fs : FilterState) (l : List Professor) :
    mailedStage fs.mailedFilter l = l.filter (passesMailed fs) := by
  unfold mailedStage passesMailed
  by_cases h1 : fs.mailedFilter = "mailed"
  · simp [h1]
  · by_cases h2 : fs.mailedFilter = "not_mailed" <;> simp [h1, h2]

theorem hiringStage_eq_filter (fs : FilterState) (l : List Professor) :
    hiringStage fs.hiringSemesterFilter l = l.filter (passesHiring fs) := by
  unfold hiringStage passesHiring
  by_cases h : fs.hiringSemesterFilter = "all"
  · simp [h]
  · have hb : (fs.hiringSemesterFilter == "all") = false := beq_false_of_ne h
    simp [h, hb]

/-- The conjunction of the six predicates of a record. -/
theorem applyFilters_eq_filter (toLowerCase : String → String) (fs : FilterState)
    (master : List Professor) :
    applyFilters toLowerCase fs master =
      master.filter (fun p =>
        passesName toLowerCase fs p && passesUniversity fs p &&
        passesResearch toLowerCase fs p && passesRecruiting fs p &&
        passesMailed fs p && passesHiring fs p) := by
  unfold applyFilters
  simp only [nameStage_eq_filter, universityStage_eq_filter, researchStage_eq_filter,
    recruitingStage_eq_filter, mailedStage_eq_filter, hiringStage_eq_filter,
    List.filter_filter]
  apply List.filter_congr
  intro p _
  simp only [Bool.and_assoc, Bool.and_comm, Bool.and_left_comm]

theorem stages_are_filters (toLowerCase : String → String) (fs : FilterState) :
    ∀ s ∈ stages toLowerCase fs, ∃ q : Professor → Bool, s = List.filter q := by
  intro s hs
  simp only [stages, List.mem_cons, List.mem_singleton, List.not_mem_nil, or_false] at hs
  rcases hs with rfl | rfl | rfl | rfl | rfl | rfl
  · exact ⟨_, funext (nameStage_eq_filter toLowerCase fs)⟩
  · exact ⟨_, funext (universityStage_eq_filter fs)⟩
  · exact ⟨_, funext (researchStage_eq_filter toLowerCase fs)⟩
  · exact ⟨_, funext (recruitingStage_eq_filter fs)⟩
  · exact ⟨_, funext (mailedStage_eq_filter fs)⟩
  · exact ⟨_, funext (hiringStage_eq_filter fs)⟩

theorem runStages_perm {l₁ l₂ : List (List Professor → List Professor)} (h : l₁.Perm l₂) :
    (∀ s ∈ l₁, ∃ q : Professor → Bool, s = List.filter q) →
      ∀ professors, runStages l₁ professors = runStages l₂ professors := by
  induction h with
  | nil => intro _ _; rfl
  | cons s _ ih =>
    intro hf professors
    simp only [runStages, List.foldl_cons]
    exact ih (fun t ht => hf t (List.mem_cons_of_mem _ ht)) (s professors)
  | swap a b l =>
    intro hf professors
    obtain ⟨qa, rfl⟩ := hf a (by simp)
    obtain ⟨qb, rfl⟩ := hf b (by simp)
    simp only [runStages, List.foldl_cons, List.filter_filter]
    congr 1
    apply List.filter_congr
    intro p _
    exact Bool.and_comm _ _
  | trans h₁ _ ih₁ ih₂ =>
    intro hf professors
    rw [ih₁ hf professors]
    exact ih₂ (fun t ht => hf t (h₁.mem_iff.mpr ht)) professors

theorem researchCallback_iff (toLowerCase : String → String) (sel : List String)
    (p : Professor) :
    researchCallback toLowerCase sel p = true ↔
      ∃ ri, p.researchInterests = some ri ∧ ri ≠ "" ∧
        ∃ s ∈ sel, ∃ piece ∈ split ri ',',
          (toLowerCase s).data <:+: (toLowerCase (trim piece)).data := by
  unfold researchCallback
  cases hri : p.researchInterests with
  | none => simp
  | some ri =>
    by_cases he : ri = ""
    · simp [he]
    · have hb : (ri == "") = false := beq_false_of_ne he
      simp only [hb, Bool.false_eq_true, if_false, List.any_eq_true, professorInterests,
        List.mem_map, includes_iff, Option.some.injEq, exists_eq_left', ne_eq, he,
        not_false_eq_true, true_and]
      constructor
      · rintro ⟨s, hs, tok, ⟨piece, hp, rfl⟩, hinf⟩
        exact ⟨s, hs, piece, hp, hinf⟩
      · rintro ⟨s, hs, piece, hp, hinf⟩
        exact ⟨s, hs, _, ⟨piece, hp, rfl⟩, hinf⟩

theorem nameCallback_iff (toLowerCase : String → String) (searchName : String)
    (p : Professor) :
    nameCallback toLowerCase searchName p = true ↔
      ∃ n, p.name = some n ∧ n ≠ "" ∧
        (toLowerCase searchName).data <:+: (toLowerCase n).data := by
  unfold nameCallback
  cases hn : p.name with
  | none => simp
  | some n => simp [includes_iff]

/-! ## Claims about `applyFilters` -/

theorem passesName_iff (toLowerCase : String → String) (fs : FilterState) (p : Professor) :
    passesName toLowerCase fs p = true ↔
      trim fs.searchName = "" ∨
        ∃ n, p.name = some n ∧ n ≠ "" ∧
          (toLowerCase fs.searchName).data <:+: (toLowerCase n).data := by
  unfold passesName
  rw [Bool.or_eq_true, beq_iff_eq, nameCallback_iff]

theorem passesUniversity_iff (fs : FilterState) (p : Professor) :
    passesUniversity fs p = true ↔
      fs.selectedUniversity = "" ∨ p.universityName = some fs.selectedUniversity := by
  unfold passesUniversity universityCallback
  rw [Bool.or_eq_true, beq_iff_eq, beq_iff_eq]

theorem passesResearch_iff (toLowerCase : String → String) (fs : FilterState)
    (p : Professor) :
    passesResearch toLowerCase fs p = true ↔
      fs.selectedResearchInterests = [] ∨
        ∃ ri, p.researchInterests = some ri ∧ ri ≠ "" ∧
          ∃ s ∈ fs.selectedResearchInterests, ∃ piece ∈ split ri ',',
            (toLowerCase s).data <:+: (toLowerCase (trim piece)).data := by
  unfold passesResearch
  rw [Bool.or_eq_true, beq_iff_eq, researchCallback_iff, List.length_eq_zero]

theorem passesRecruiting_iff (fs : FilterState) (p : Professor) :
    passesRecruiting fs p = true ↔
      (fs.recruitingFilter = "yes" →
        p.currentlyRecruiting = some "Yes" ∨ p.recruitingPhdStudents = some "Yes") ∧
      (fs.recruitingFilter = "no" →
        p.currentlyRecruiting ≠ some "Yes" ∧ p.recruitingPhdStudents ≠ some "Yes") := by
  unfold passesRecruiting recruitingYesCallback recruitingNoCallback
  by_cases h1 : fs.recruitingFilter = "yes"
  · have h2 : ¬ (("yes" : String) = "no") := by decide
    simp [h1, h2]
  · by_cases h2 : fs.recruitingFilter = "no"
    · simp [h1, h2]
    · simp [h1, h2]

theorem passesMailed_iff (fs : FilterState) (p : Professor) :
    passesMailed fs p = true ↔
      (fs.mailedFilter = "mailed" → p.mailed = some true) ∧
      (fs.mailedFilter = "not_mailed" → p.mailed ≠ some true) := by
  unfold passesMailed
  by_cases h1 : fs.mailedFilter = "mailed"
  · have h2 : ¬ (("mailed" : String) = "not_mailed") := by decide
    simp [h1, h2]
  · by_cases h2 : fs.mailedFilter = "not_mailed"
    · simp [h1, h2]
    · simp [h1, h2]

theorem hiringCallback_iff (V : String) (p : Professor) :
    hiringCallback V p = true ↔
      ∃ h, p.hiringSemester = some h ∧ h ≠ "" ∧
        (if V = "Both" then h = "Both" else (h = V ∨ h = "Both")) := by
  unfold hiringCallback
  cases hp : p.hiringSemester with
  | none => simp [truthy]
  | some v =>
    by_cases hv : v = ""
    · simp [truthy, hv]
    · by_cases hV : V = "Both"
      · simp [truthy, hv, hV]
      · have hb : (V == "Both") = false := beq_false_of_ne hV
        simp [truthy, hv, hV, hb]

theorem passesHiring_iff (fs : FilterState) (p : Professor) :
    passesHiring fs p = true ↔
      fs.hiringSemesterFilter = "all" ∨
        ∃ h, p.hiringSemester = some h ∧ h ≠ "" ∧
          (if fs.hiringSemesterFilter = "Both" then h = "Both"
           else (h = fs.hiringSemesterFilter ∨ h = "Both")) := by
  unfold passesHiring
  rw [Bool.or_eq_true, beq_iff_eq, hiringCallback_iff]

theorem mem_applyFilters (toLowerCase : String → String) (fs : FilterState)
    (master : List Professor) (p : Professor) :
    p ∈ applyFilters toLowerCase fs master ↔
      p ∈ master ∧
      (trim fs.searchName = "" ∨
        ∃ n, p.name = some n ∧ n ≠ "" ∧
          (toLowerCase fs.searchName).data <:+: (toLowerCase n).data) ∧
      (fs.selectedUniversity = "" ∨ p.universityName = some fs.selectedUniversity) ∧
      (fs.selectedResearchInterests = [] ∨
        ∃ ri, p.researchInterests = some ri ∧ ri ≠ "" ∧
          ∃ s ∈ fs.selectedResearchInterests, ∃ piece ∈ split ri ',',
            (toLowerCase s).data <:+: (toLowerCase (trim piece)).data) ∧
      ((fs.recruitingFilter = "yes" →
          p.currentlyRecruiting = some "Yes" ∨ p.recruitingPhdStudents = some "Yes") ∧
        (fs.recruitingFilter = "no" →
          p.currentlyRecruiting ≠ some "Yes" ∧ p.recruitingPhdStudents ≠ some "Yes")) ∧
      ((fs.mailedFilter = "mailed" → p.mailed = some true) ∧
        (fs.mailedFilter = "not_mailed" → p.mailed ≠ some true)) ∧
      (fs.hiringSemesterFilter = "all" ∨
        ∃ h, p.hiringSemester = some h ∧ h ≠ "" ∧
          (if fs.hiringSemesterFilter = "Both" then h = "Both"
           else (h = fs.hiringSemesterFilter ∨ h = "Both"))) := by
  rw [applyFilters_eq_filter, List.mem_filter]
  simp only [Bool.and_eq_true, and_assoc, passesName_iff, passesUniversity_iff,
    passesResearch_iff, passesRecruiting_iff, passesMailed_iff, passesHiring_iff]

/-- C4: `applyFilters` returns exactly the master-list records that satisfy all six filter
predicates, each as often as the master list has it and in master-list order, as a new list
computed from the master list. The predicates are: the search text is blank or the name is
present and contains it case-insensitively; no university is selected or `universityName`
equals the selected one; no interest is selected or some selected interest is contained
case-insensitively in a trimmed comma-separated token of a present `researchInterests`; for
`"yes"` the record recruits, for `"no"` it does not; for `"mailed"` `mailed` is true, for
`"not_mailed"` it is not; the hiring filter is `"all"`, or `hiringSemester` is present and is
`"Both"` or, for a filter other than `"Both"`, the filter value. With every filter at its
default (empty text, empty selection, `"all"`) the result is the whole master list; and of
eight records, six of which fail one predicate each, exactly the other two are returned. -/
theorem applyFilters_exact (toLowerCase : String → String) (fs : FilterState)
    (master : List Professor) :
    (∀ p, p ∈ applyFilters toLowerCase fs master ↔
      p ∈ master ∧
      (trim fs.searchName = "" ∨
        ∃ n, p.name = some n ∧ n ≠ "" ∧
          (toLowerCase fs.searchName).data <:+: (toLowerCase n).data) ∧
      (fs.selectedUniversity = "" ∨ p.universityName = some fs.selectedUniversity) ∧
      (fs.selectedResearchInterests = [] ∨
        ∃ ri, p.researchInterests = some ri ∧ ri ≠ "" ∧
          ∃ s ∈ fs.selectedResearchInterests, ∃ piece ∈ split ri ',',
            (toLowerCase s).data <:+: (toLowerCase (trim piece)).data) ∧
      ((fs.recruitingFilter = "yes" →
          p.currentlyRecruiting = some "Yes" ∨ p.recruitingPhdStudents = some "Yes") ∧
        (fs.recruitingFilter = "no" →
          p.currentlyRecruiting ≠ some "Yes" ∧ p.recruitingPhdStudents ≠ some "Yes")) ∧
      ((fs.mailedFilter = "mailed" → p.mailed = some true) ∧
        (fs.mailedFilter = "not_mailed" → p.mailed ≠ some true)) ∧
      (fs.hiringSemesterFilter = "all" ∨
        ∃ h, p.hiringSemester = some h ∧ h ≠ "" ∧
          (if fs.hiringSemesterFilter = "Both" then h = "Both"
           else (h = fs.hiringSemesterFilter ∨ h = "Both")))) ∧
    (∀ p, p ∈ applyFilters toLowerCase fs master →
      (applyFilters toLowerCase fs master).count p = master.count p) ∧
    (applyFilters toLowerCase fs master).Sublist master ∧
    applyFilters toLowerCase fs master =
      master.filter (fun p =>
        passesName toLowerCase fs p && passesUniversity fs p &&
        passesResearch toLowerCase fs p && passesRecruiting fs p &&
        passesMailed fs p && passesHiring fs p) ∧
    applyFilters toLowerCase
      { searchName := "", selectedUniversity := "", selectedResearchInterests := [],
        recruitingFilter := "all", mailedFilter := "all", hiringSemesterFilter := "all" }
      master = master ∧
    applyFilters asciiToLowerCase
      { searchName := "s", selectedUniversity := "MIT", selectedResearchInterests := ["ai"],
        recruitingFilter := "yes", mailedFilter := "not_mailed",
        hiringSemesterFilter := "Fall" }
      [{ id := 1, name := some "Smith", universityName := some "MIT",
         researchInterests := some "AI, Systems", currentlyRecruiting := some "Yes",
         hiringSemester := some "Both" },
       { id := 2, name := some "Sato", universityName := some "Stanford",
         researchInterests := some "AI", currentlyRecruiting := some "Yes",
         hiringSemester := some "Fall" },
       { id := 3, name := some "Stone", universityName := some "MIT",
         researchInterests := some "AI", currentlyRecruiting := some "Yes",
         mailed := some true, hiringSemester := some "Fall" },
       { id := 4, name := some "Kim", universityName := some "MIT",
         researchInterests := some "AI", recruitingPhdStudents := some "Yes",
         hiringSemester := some "Fall" },
       { id := 5, name := some "Sims", universityName := some "MIT",
         researchInterests := some "Fairness in AI", recruitingPhdStudents := some "Yes",
         hiringSemester := some "Fall" },
       { id := 6, name := some "Sun", universityName := some "MIT",
         researchInterests := some "Theory", currentlyRecruiting := some "Yes",
         hiringSemester := some "Fall" },
       { id := 7, name := some "Shah", universityName := some "MIT",
         researchInterests := some "AI", currentlyRecruiting := some "No",
         hiringSemester := some "Fall" },
       { id := 8, name := some "Song", universityName := some "MIT",
         researchInterests := some "AI", currentlyRecruiting := some "Yes",
         hiringSemester := some "Spring" }] =
      [{ id := 1, name := some "Smith", universityName := some "MIT",
         researchInterests := some "AI, Systems", currentlyRecruiting := some "Yes",
         hiringSemester := some "Both" },
       { id := 5, name := some "Sims", universityName := some "MIT",
         researchInterests := some "Fairness in AI", recruitingPhdStudents := some "Yes",
         hiringSemester := some "Fall" }] := by
  refine ⟨mem_applyFilters toLowerCase fs master, ?_, ?_,
    applyFilters_eq_filter toLowerCase fs master, ?_, by decide⟩
  · intro p hp
    rw [applyFilters_eq_filter] at hp ⊢
    exact List.count_filter (List.mem_filter.mp hp).2
  · rw [applyFilters_eq_filter]
    exact List.filter_sublist _
  · have ht : trim "" = "" := by decide
    simp [applyFilters, nameStage, universityStage, researchStage, recruitingStage,
      mailedStage, hiringStage, ht]

/-- C5: for every master list and every setting of the other five filters, the results for the
recruiting filter `"yes"` and `"no"` have no record in common, both are the parts of the
`"all"` result selected by the recruiting test and by its negation, and every record of the
`"all"` result is in exactly one of the two. -/
theorem recruiting_yes_no_partition (toLowerCase : String → String) (fs : FilterState)
    (master : List Professor) :
    (∀ p, p ∈ applyFilters toLowerCase { fs with recruitingFilter := "yes" } master →
      p ∉ applyFilters toLowerCase { fs with recruitingFilter := "no" } master) ∧
    applyFilters toLowerCase { fs with recruitingFilter := "yes" } master =
      (applyFilters toLowerCase { fs with recruitingFilter := "all" } master).filter
        (fun p => p.currentlyRecruiting == some "Yes" ||
          p.recruitingPhdStudents == some "Yes") ∧
    applyFilters toLowerCase { fs with recruitingFilter := "no" } master =
      (applyFilters toLowerCase { fs with recruitingFilter := "all" } master).filter
        (fun p => !(p.currentlyRecruiting == some "Yes" ||
          p.recruitingPhdStudents == some "Yes")) ∧
    (∀ p, p ∈ applyFilters toLowerCase { fs with recruitingFilter := "all" } master →
      (p ∈ applyFilters toLowerCase { fs with recruitingFilter := "yes" } master ∧
        p ∉ applyFilters toLowerCase { fs with recruitingFilter := "no" } master) ∨
      (p ∈ applyFilters toLowerCase { fs with recruitingFilter := "no" } master ∧
        p ∉ applyFilters toLowerCase { fs with recruitingFilter := "yes" } master)) := by
  have hyes : applyFilters toLowerCase { fs with recruitingFilter := "yes" } master =
      (applyFilters toLowerCase { fs with recruitingFilter := "all" } master).filter
        (fun p => p.currentlyRecruiting == some "Yes" ||
          p.recruitingPhdStudents == some "Yes") := by
    simp only [applyFilters_eq_filter, List.filter_filter]
    apply List.filter_congr
    intro p _
    simp only [passesName, passesUniversity, passesResearch, passesRecruiting, passesMailed,
      passesHiring, recruitingYesCallback]
    have h1 : (("all" : String) == "yes") = false := by decide
    have h2 : (("all" : String) == "no") = false := by decide
    simp only [beq_self_eq_true, if_true, h1, h2, Bool.false_eq_true, if_false, Bool.and_true]
    simp only [Bool.and_assoc, Bool.and_comm, Bool.and_left_comm]
  have hno : applyFilters toLowerCase { fs with recruitingFilter := "no" } master =
      (applyFilters toLowerCase { fs with recruitingFilter := "all" } master).filter
        (fun p => !(p.currentlyRecruiting == some "Yes" ||
          p.recruitingPhdStudents == some "Yes")) := by
    simp only [applyFilters_eq_filter, List.filter_filter]
    apply List.filter_congr
    intro p _
    simp only [passesName, passesUniversity, passesResearch, passesRecruiting, passesMailed,
      passesHiring, recruitingNoCallback]
    have h1 : (("all" : String) == "yes") = false := by decide
    have h2 : (("all" : String) == "no") = false := by decide
    have h3 : (("no" : String) == "yes") = false := by decide
    simp only [beq_self_eq_true, if_true, h1, h2, h3, Bool.false_eq_true, if_false,
      Bool.and_true, Bool.not_or, bne]
    simp only [Bool.and_assoc, Bool.and_comm, Bool.and_left_comm]
  refine ⟨?_, hyes, hno, ?_⟩
  · intro p hy hn
    rw [hyes, List.mem_filter] at hy
    rw [hno, List.mem_filter] at hn
    have := hn.2
    simp [hy.2] at this
  · intro p hp
    rw [hyes, hno]
    simp only [List.mem_filter, hp, true_and]
    cases h : (p.currentlyRecruiting == some "Yes" || p.recruitingPhdStudents == some "Yes")
    · right
      simp
    · left
      simp

/-- C6: with a non-empty research-interest selection, `applyFilters` keeps a professor
exactly when the other five filters keep it and its `researchInterests` is present (not null,
not empty) and some selected interest, lower-cased, is a substring of some comma-separated,
trimmed, lower-cased token of it; the same holds for the research-interest block alone; and
with an empty selection the block removes nothing. -/
theorem research_interest_filter (toLowerCase : String → String) (fs : FilterState)
    (l : List Professor) :
    (fs.selectedResearchInterests ≠ [] →
      ∀ p, p ∈ applyFilters toLowerCase fs l ↔
        p ∈ applyFilters toLowerCase { fs with selectedResearchInterests := [] } l ∧
        ∃ ri, p.researchInterests = some ri ∧ ri ≠ "" ∧
          ∃ s ∈ fs.selectedResearchInterests, ∃ piece ∈ split ri ',',
            (toLowerCase s).data <:+: (toLowerCase (trim piece)).data) ∧
    (fs.selectedResearchInterests ≠ [] →
      ∀ p, p ∈ researchStage toLowerCase fs.selectedResearchInterests l ↔
        p ∈ l ∧
        ∃ ri, p.researchInterests = some ri ∧ ri ≠ "" ∧
          ∃ s ∈ fs.selectedResearchInterests, ∃ piece ∈ split ri ',',
            (toLowerCase s).data <:+: (toLowerCase (trim piece)).data) ∧
    researchStage toLowerCase [] l = l := by
  refine ⟨?_, ?_, rfl⟩
  · intro hsel p
    have hb : (fs.selectedResearchInterests.length == 0) = false :=
      beq_false_of_ne (Nat.pos_iff_ne_zero.mp (List.length_pos.mpr hsel))
    rw [← researchCallback_iff]
    simp only [applyFilters_eq_filter, List.mem_filter, Bool.and_eq_true]
    simp only [passesName, passesUniversity, passesResearch, passesRecruiting, passesMailed,
      passesHiring, hb, Bool.false_or, List.length_nil, beq_self_eq_true, Bool.true_or]
    tauto
  · intro hsel p
    have hpos : fs.selectedResearchInterests.length > 0 := List.length_pos.mpr hsel
    rw [← researchCallback_iff]
    simp [researchStage, hpos]

/-- C6 at a concrete input: selecting `"learning"` keeps the professor whose interests are
`"Machine Learning, Systems"` and drops the one without interests. -/
theorem research_interest_filter_witness :
    ∀ p, p ∈ researchStage asciiToLowerCase ["learning"]
        [{ id := 1, researchInterests := some "Machine Learning, Systems" },
         { id := 2, researchInterests := none }] ↔
      p ∈ [({ id := 1, researchInterests := some "Machine Learning, Systems" } : Professor),
           { id := 2, researchInterests := none }] ∧
      ∃ ri, p.researchInterests = some ri ∧ ri ≠ "" ∧
        ∃ s ∈ ["learning"], ∃ piece ∈ split ri ',',
          (asciiToLowerCase s).data <:+: (asciiToLowerCase (trim piece)).data :=
  (research_interest_filter asciiToLowerCase { selectedResearchInterests := ["learning"] }
    [{ id := 1, researchInterests := some "Machine Learning, Systems" },
     { id := 2, researchInterests := none }]).2.1 (by decide)

/-- C7: the hiring-semester block is a no-op for `"all"`, keeps only the records with
`hiringSemester` `"Both"` for the filter `"Both"`, and for any other value `V` of the select
(and more generally for any other non-empty `V`) keeps exactly the records whose
`hiringSemester` is `V` or `"Both"`; with filter `"Fall"` and records with `"Fall"`,
`"Spring"`, `"Both"` and unset, exactly the `"Fall"` and `"Both"` records pass. -/
theorem hiring_semester_filter (l : List Professor) (V : String) :
    hiringStage "all" l = l ∧
    hiringStage "Both" l = l.filter (fun p => p.hiringSemester == some "Both") ∧
    (V ∈ hiringSemesterOptions → V ≠ "all" → V ≠ "Both" →
      hiringStage V l =
        l.filter (fun p => p.hiringSemester == some V || p.hiringSemester == some "Both")) ∧
    (V ≠ "all" → V ≠ "Both" → V ≠ "" →
      hiringStage V l =
        l.filter (fun p => p.hiringSemester == some V || p.hiringSemester == some "Both")) ∧
    hiringStage "Fall"
        [{ id := 1, hiringSemester := some "Fall" }, { id := 2, hiringSemester := some "Spring" },
         { id := 3, hiringSemester := some "Both" }, { id := 4, hiringSemester := none }] =
      [{ id := 1, hiringSemester := some "Fall" }, { id := 3, hiringSemester := some "Both" }] := by
  have hgen : V ≠ "all" → V ≠ "Both" → V ≠ "" →
      hiringStage V l =
        l.filter (fun p => p.hiringSemester == some V || p.hiringSemester == some "Both") := by
    intro hall hboth hempty
    have h : (V != "all") = true := by simpa using hall
    have hb : (V == "Both") = false := beq_false_of_ne hboth
    simp only [hiringStage, h, if_true]
    apply List.filter_congr
    intro p _
    cases hp : p.hiringSemester with
    | none => simp [hiringCallback, truthy, hp]
    | some v =>
      by_cases hv0 : v = ""
      · subst hv0
        have h1 : ¬ ("" : String) = V := fun e => hempty e.symm
        have h2 : ¬ ("" : String) = "Both" := by decide
        simp [hiringCallback, truthy, hp, h1, h2]
      · simp [hiringCallback, truthy, hp, hv0, hb]
  refine ⟨rfl, ?_, ?_, hgen, by decide⟩
  · have h : (("Both" : String) != "all") = true := by decide
    simp only [hiringStage, h, if_true]
    apply List.filter_congr
    intro p _
    cases hp : p.hiringSemester with
    | none => simp [hiringCallback, truthy, hp]
    | some v =>
      by_cases hv : v = "Both"
      · subst hv
        have : (("Both" : String) != "") = true := by decide
        simp [hiringCallback, truthy, hp, this]
      · by_cases hv0 : v = "" <;> simp [hiringCallback, truthy, hp, hv, hv0]
  · intro hopt hall hboth
    refine hgen hall hboth ?_
    intro hempty
    subst hempty
    revert hopt
    decide

/-- C7 at the value `"Spring"` of the select. -/
theorem hiring_semester_filter_witness :
    hiringStage "Spring"
        [{ id := 1, hiringSemester := some "Fall" }, { id := 2, hiringSemester := some "Spring" },
         { id := 3, hiringSemester := some "Both" }, { id := 4, hiringSemester := some "" }] =
      [({ id := 1, hiringSemester := some "Fall" } : Professor),
         { id := 2, hiringSemester := some "Spring" },
         { id := 3, hiringSemester := some "Both" }, { id := 4, hiringSemester := some "" }].filter
        (fun p => p.hiringSemester == some "Spring" || p.hiringSemester == some "Both") :=
  (hiring_semester_filter _ "Spring").2.2.1 (by decide) (by decide) (by decide)

/-- C8, refuted as stated: for the search text `" "` (one blank) the name block keeps the
record named `Smith`, whose name does not contain a blank. -/
theorem nameStage_blank_search :
    ({ name := some "Smith" } : Professor) ∈
      nameStage asciiToLowerCase " " [{ name := some "Smith" }] ∧
    ¬ (asciiToLowerCase " ").data <:+: (asciiToLowerCase "Smith").data := by
  refine ⟨by decide, fun h => ?_⟩
  have hinc := (includes_iff (asciiToLowerCase "Smith") (asciiToLowerCase " ")).mpr h
  revert hinc
  decide

/-- C8, amended: for every master list and every name search text that is not blank (it has a
character other than white space), the name block of `applyFilters` keeps exactly the records
whose name is present and contains the search text as a case-insensitive substring, in
master-list order; for a blank search text (empty or white space only) it keeps every
record. -/
theorem name_filter (toLowerCase : String → String) (searchName : String)
    (l : List Professor) :
    (trim searchName ≠ "" →
      ∀ p, p ∈ nameStage toLowerCase searchName l ↔
        p ∈ l ∧ ∃ n, p.name = some n ∧ n ≠ "" ∧
          (toLowerCase searchName).data <:+: (toLowerCase n).data) ∧
    (trim searchName = "" → nameStage toLowerCase searchName l = l) ∧
    (nameStage toLowerCase searchName l).Sublist l := by
  refine ⟨?_, ?_, ?_⟩
  · intro h p
    have hb : (trim searchName != "") = true := by simpa using h
    rw [← nameCallback_iff]
    simp [nameStage, hb]
  · intro h
    simp [nameStage, h]
  · unfold nameStage
    split_ifs
    · exact List.filter_sublist _
    · exact List.Sublist.refl _

/-- C8, amended, at the search text `"smi"` over the records `Smith` and `Jones`. -/
theorem name_filter_witness :
    ∀ p, p ∈ nameStage asciiToLowerCase "smi"
        [{ id := 1, name := some "Smith" }, { id := 2, name := some "Jones" }] ↔
      p ∈ [({ id := 1, name := some "Smith" } : Professor), { id := 2, name := some "Jones" }] ∧
      ∃ n, p.name = some n ∧ n ≠ "" ∧
        (asciiToLowerCase "smi").data <:+: (asciiToLowerCase n).data :=
  (name_filter asciiToLowerCase "smi"
    [{ id := 1, name := some "Smith" }, { id := 2, name := some "Jones" }]).1 (by decide)

/-- C9: applying `applyFilters` with the same filter state to its own result returns that
result unchanged, and any two applications to the same master list and filter state return
identical lists. -/
theorem applyFilters_idempotent (toLowerCase : String → String) (fs : FilterState)
    (master : List Professor) :
    applyFilters toLowerCase fs (applyFilters toLowerCase fs master) =
      applyFilters toLowerCase fs master ∧
    ∀ first second : List Professor,
      first = applyFilters toLowerCase fs master →
      second = applyFilters toLowerCase fs master → first = second := by
  constructor
  · simp only [applyFilters_eq_filter, List.filter_filter, Bool.and_self]
  · intro first second h₁ h₂
    rw [h₁, h₂]

/-- C10: running the six blocks of `applyFilters` in any order gives the same list as the
source order. -/
theorem applyFilters_order_irrelevant (toLowerCase : String → String) (fs : FilterState)
    (master : List Professor) (order : List (List Professor → List Professor))
    (horder : order.Perm (stages toLowerCase fs)) :
    runStages order master = applyFilters toLowerCase fs master := by
  have hrun : runStages (stages toLowerCase fs) master = applyFilters toLowerCase fs master :=
    rfl
  rw [← hrun]
  exact (runStages_perm horder.symm (stages_are_filters toLowerCase fs) master).symm

/-- C10 at the reversed order of the blocks. -/
theorem applyFilters_order_irrelevant_witness :
    runStages (stages asciiToLowerCase { searchName := "s", recruitingFilter := "yes" }).reverse
        [{ id := 1, name := some "Smith", currentlyRecruiting := some "Yes" },
         { id := 2, name := some "Jones" }] =
      applyFilters asciiToLowerCase { searchName := "s", recruitingFilter := "yes" }
        [{ id := 1, name := some "Smith", currentlyRecruiting := some "Yes" },
         { id := 2, name := some "Jones" }] :=
  applyFilters_order_irrelevant asciiToLowerCase _ _ _ (List.reverse_perm _)

end ProfessorSearch.SearchPage

namespace ProfessorSearch.SearchPage

/-! ## Follow-up list and pagination -/

theorem needsFollowUpCallback_iff (parseDate : String → Option Int) (sevenDaysAgo : Int)
    (p : Professor) :
    needsFollowUpCallback parseDate sevenDaysAgo p = true ↔
      p.mailed = some true ∧ p.followUpMailSent ≠ some true ∧
        ∃ s t, p.mailingDate = some s ∧ s ≠ "" ∧ parseDate s = some t ∧ t ≤ sevenDaysAgo := by
  unfold needsFollowUpCallback
  by_cases hm : p.mailed = some true
  · by_cases hf : p.followUpMailSent = some true
    · simp [hm, hf]
    · cases hd : p.mailingDate with
      | none => simp [hm, hf, truthy]
      | some s =>
        by_cases hs : s = ""
        · simp [hm, hf, truthy, hs]
        · cases hp : parseDate s with
          | none => simp [hm, hf, truthy, hs, hp]
          | some t => simp [hm, hf, truthy, hs, hp]
  · simp [hm]

theorem mem_calculateNeedsFollowUp (parseDate : String → Option Int) (now : Int)
    (professors : List Professor) (p : Professor) :
    p ∈ calculateNeedsFollowUp parseDate now professors ↔
      p ∈ professors ∧ p.mailed = some true ∧ p.followUpMailSent ≠ some true ∧
        ∃ s t, p.mailingDate = some s ∧ s ≠ "" ∧ parseDate s = some t ∧
          t ≤ now - 7 * 24 * 60 * 60 * 1000 := by
  unfold calculateNeedsFollowUp
  simp only [List.mem_filter, needsFollowUpCallback_iff]

/-- C11: `calculateNeedsFollowUp` returns, in master-list order, exactly the master-list
records with `mailed` true, `followUpMailSent` not true and a `mailingDate` whose date is at or
before the current time minus 7 days; the list the effect stores does not depend on the filter
values; a record mailed exactly 7 days ago qualifies, a record mailed 10 days ago with
`followUpMailSent` false is included, and the same record with `followUpMailSent` true is
excluded. -/
theorem needs_follow_up (toLowerCase : String → String) (parseDate : String → Option Int)
    (now : Int) (professors : List Professor) (st : ScreenState) :
    (∀ p, p ∈ calculateNeedsFollowUp parseDate now professors ↔
      p ∈ professors ∧ p.mailed = some true ∧ p.followUpMailSent ≠ some true ∧
        ∃ s t, p.mailingDate = some s ∧ s ≠ "" ∧ parseDate s = some t ∧
          t ≤ now - 7 * 24 * 60 * 60 * 1000) ∧
    (calculateNeedsFollowUp parseDate now professors).Sublist professors ∧
    (∀ filters : FilterState,
      (filtersEffect toLowerCase parseDate now { st with filters := filters }).needsFollowUp =
        calculateNeedsFollowUp parseDate now st.professors) ∧
    (∀ (p : Professor) (s : String), p.mailed = some true → p.mailingDate = some s → s ≠ "" →
      p.followUpMailSent ≠ some true → parseDate s = some (now - 7 * 24 * 60 * 60 * 1000) →
      p ∈ calculateNeedsFollowUp parseDate now [p]) ∧
    (∀ (p : Professor) (s : String), p.mailed = some true → p.mailingDate = some s → s ≠ "" →
      parseDate s = some (now - 10 * 24 * 60 * 60 * 1000) →
      { p with followUpMailSent := some false } ∈
        calculateNeedsFollowUp parseDate now [{ p with followUpMailSent := some false }] ∧
      calculateNeedsFollowUp parseDate now [{ p with followUpMailSent := some true }] = []) := by
  refine ⟨mem_calculateNeedsFollowUp parseDate now professors, List.filter_sublist _,
    fun _ => rfl, ?_, ?_⟩
  · intro p s hm hd hs hf hp
    rw [mem_calculateNeedsFollowUp]
    exact ⟨List.mem_singleton.mpr rfl, hm, hf, s, _, hd, hs, hp, le_refl _⟩
  · intro p s hm hd hs hp
    constructor
    · rw [mem_calculateNeedsFollowUp]
      refine ⟨List.mem_singleton.mpr rfl, hm, by simp, s, _, hd, hs, hp, by omega⟩
    · rw [List.eq_nil_iff_forall_not_mem]
      intro q hq
      rw [mem_calculateNeedsFollowUp] at hq
      obtain ⟨hq1, _, hq3, _⟩ := hq
      rw [List.mem_singleton] at hq1
      subst hq1
      exact hq3 rfl

/-- C11 at a concrete record: mailed on 2026-10-25, looked at 10 days later. -/
theorem needs_follow_up_witness :
    ({ id := 1, mailed := some true, mailingDate := some "2026-10-25T00:00:00.000Z",
       followUpMailSent := some false } : Professor) ∈
      calculateNeedsFollowUp
        (fun s => if s = "2026-10-25T00:00:00.000Z" then some 1792886400000 else none)
        1793750400000
        [{ id := 1, mailed := some true, mailingDate := some "2026-10-25T00:00:00.000Z",
           followUpMailSent := some false }] ∧
    calculateNeedsFollowUp
        (fun s => if s = "2026-10-25T00:00:00.000Z" then some 1792886400000 else none)
        1793750400000
        [{ id := 1, mailed := some true, mailingDate := some "2026-10-25T00:00:00.000Z",
           followUpMailSent := some true }] = [] :=
  (needs_follow_up asciiToLowerCase
    (fun s => if s = "2026-10-25T00:00:00.000Z" then some 1792886400000 else none)
    1793750400000 [] {}).2.2.2.2
    { id := 1, mailed := some true, mailingDate := some "2026-10-25T00:00:00.000Z" }
    "2026-10-25T00:00:00.000Z" rfl rfl (by decide) (by decide)

end ProfessorSearch.SearchPage

namespace ProfessorSearch.SearchPage

theorem totalPages_eq (l : List Professor) :
    totalPages l = (((l.length + 49) / 50 : Nat) : Int) := by
  unfold totalPages professorsPerPage
  have hlo : 50 * ((l.length + 49) / 50) ≤ l.length + 49 := Nat.mul_div_le _ _
  have hhi : l.length + 49 < 50 * ((l.length + 49) / 50) + 50 := by
    have := Nat.lt_mul_div_succ (l.length + 49) (by norm_num : 0 < 50)
    omega
  generalize (l.length + 49) / 50 = z at hlo hhi
  generalize l.length = n at hlo hhi
  rw [Int.ceil_eq_iff]
  have h50 : (0 : ℚ) < ((50 : Nat) : ℚ) := by norm_num
  constructor
  · rw [lt_div_iff₀ h50]
    have h : z * 50 < n + 50 := by omega
    have hq : ((z * 50 : Nat) : ℚ) < ((n + 50 : Nat) : ℚ) := Nat.cast_lt.mpr h
    push_cast at hq ⊢
    linarith
  · rw [div_le_iff₀ h50]
    have h : n ≤ z * 50 := by omega
    have hq : ((n : Nat) : ℚ) ≤ ((z * 50 : Nat) : ℚ) := Nat.cast_le.mpr h
    push_cast at hq ⊢
    linarith

theorem currentProfessors_eq (l : List Professor) (k : Nat) (hk : 1 ≤ k) :
    currentProfessors l (k : Int) = (l.take (min (k * 50) l.length)).drop ((k - 1) * 50) := by
  obtain ⟨j, rfl⟩ : ∃ j, k = j + 1 := ⟨k - 1, by omega⟩
  unfold currentProfessors slice professorsPerPage
  have hs : ¬ (((j + 1 : Nat) : Int) - 1) * ((50 : Nat) : Int) < 0 := by
    push_cast
    omega
  have he : ¬ (((j + 1 : Nat) : Int) - 1) * ((50 : Nat) : Int) + ((50 : Nat) : Int) < 0 := by
    push_cast
    omega
  simp only [hs, he, if_false]
  have h1 : (min ((((j + 1 : Nat) : Int) - 1) * ((50 : Nat) : Int)) (l.length : Int)).toNat =
      min (j * 50) l.length := by
    push_cast
    omega
  have h2 : (min ((((j + 1 : Nat) : Int) - 1) * ((50 : Nat) : Int) + ((50 : Nat) : Int))
        (l.length : Int) -
      min ((((j + 1 : Nat) : Int) - 1) * ((50 : Nat) : Int)) (l.length : Int)).toNat =
      min ((j + 1) * 50) l.length - min (j * 50) l.length := by
    push_cast
    omega
  rw [h1, h2, List.drop_take, Nat.add_sub_cancel]
  by_cases hle : j * 50 ≤ l.length
  · rw [Nat.min_eq_left hle]
  · have hge : l.length ≤ j * 50 := by omega
    rw [Nat.min_eq_right hge, List.drop_eq_nil_of_le (le_refl _),
      List.drop_eq_nil_of_le hge]
    simp

/-- C12: `totalPages` is the ceiling of n/50, that is (n + 49) div 50, the least number of
pages of 50 that hold n records, and 0 for the empty list; page k (k at least 1) shows the
records at indices (k-1)*50 up to but not including min(k*50, n); and for a list of 120
records `totalPages` is 3, page 1 shows the first 50 records and page 3 the 20 records from
index 100 on. -/
theorem pagination (l : List Professor) (k : Nat) :
    totalPages l = (((l.length + 49) / 50 : Nat) : Int) ∧
    (∀ t : Nat, totalPages l ≤ (t : Int) ↔ l.length ≤ 50 * t) ∧
    totalPages ([] : List Professor) = 0 ∧
    (1 ≤ k →
      currentProfessors l (k : Int) =
        (l.take (min (k * 50) l.length)).drop ((k - 1) * 50)) ∧
    (l.length = 120 →
      totalPages l = 3 ∧ currentProfessors l 1 = l.take 50 ∧
      currentProfessors l 3 = l.drop 100 ∧ (currentProfessors l 3).length = 20) := by
  refine ⟨totalPages_eq l, ?_, ?_, currentProfessors_eq l k, ?_⟩
  · intro t
    rw [totalPages_eq]
    constructor
    · intro h
      have h' : (l.length + 49) / 50 ≤ t := by exact_mod_cast h
      omega
    · intro h
      have h' : (l.length + 49) / 50 ≤ t := by omega
      exact_mod_cast h'
  · rw [totalPages_eq]
    rfl
  · intro hlen
    have h1 := currentProfessors_eq l 1 (le_refl 1)
    have h3 := currentProfessors_eq l 3 (by norm_num)
    simp only [hlen, Nat.cast_one, Nat.cast_ofNat] at h1 h3
    refine ⟨?_, ?_, ?_, ?_⟩
    · rw [totalPages_eq, hlen]
      rfl
    · rw [h1]
      simp
    · rw [h3]
      have : List.take 120 l = l := List.take_of_length_le (by omega)
      simp [this]
    · rw [h3]
      simp [hlen]

/-- C12 at a list of 120 records. -/
theorem pagination_witness :
    (currentProfessors (List.replicate 120 ({ } : Professor)) ((2 : Nat) : Int) =
      ((List.replicate 120 ({ } : Professor)).take
        (min (2 * 50) (List.replicate 120 ({ } : Professor)).length)).drop ((2 - 1) * 50)) ∧
    (totalPages (List.replicate 120 ({ } : Professor)) = 3 ∧
      currentProfessors (List.replicate 120 ({ } : Professor)) 1 =
        (List.replicate 120 ({ } : Professor)).take 50 ∧
      currentProfessors (List.replicate 120 ({ } : Professor)) 3 =
        (List.replicate 120 ({ } : Professor)).drop 100 ∧
      (currentProfessors (List.replicate 120 ({ } : Professor)) 3).length = 20) :=
  ⟨(pagination (List.replicate 120 { }) 2).2.2.2.1 (by decide),
   (pagination (List.replicate 120 { }) 2).2.2.2.2 (List.length_replicate 120 _)⟩

end ProfessorSearch.SearchPage

namespace ProfessorSearch.SearchPage

/-! ## The current page -/

theorem fetchAllProfessors_page (response : Response Professor) (st : ScreenState) :
    (fetchAllProfessors response st).currentPage = st.currentPage ∧
    (fetchAllProfessors response st).filteredProfessors = st.filteredProfessors := by
  unfold fetchAllProfessors
  cases response with
  | threw e m => exact ⟨rfl, rfl⟩
  | replied success professors => cases success <;> exact ⟨rfl, rfl⟩

theorem goToPage_bounds (parseInt : String → Option Int) (total page : Int) (value : String)
    (h1 : 1 ≤ page) (h2 : page ≤ max 1 total) :
    1 ≤ goToPage parseInt total page value ∧
      goToPage parseInt total page value ≤ max 1 total := by
  unfold goToPage
  cases parseInt value with
  | none => exact ⟨h1, h2⟩
  | some q =>
    by_cases hq : q ≥ 1 ∧ q ≤ total
    · dsimp only
      rw [if_pos hq]
      exact ⟨hq.1, le_trans hq.2 (le_max_right _ _)⟩
    · dsimp only
      rw [if_neg hq]
      exact ⟨h1, h2⟩

theorem step_page_bounds (toLowerCase : String → String) (parseDate : String → Option Int)
    (parseInt : String → Option Int) (st : ScreenState) (e : Event)
    (h : 1 ≤ st.currentPage ∧ st.currentPage ≤ max 1 (totalPages st.filteredProfessors)) :
    1 ≤ (step toLowerCase parseDate parseInt st e).currentPage ∧
      (step toLowerCase parseDate parseInt st e).currentPage ≤
        max 1 (totalPages (step toLowerCase parseDate parseInt st e).filteredProfessors) := by
  cases e with
  | filterChange filters now =>
    exact ⟨le_refl _, le_max_left _ _⟩
  | reload response now =>
    cases response with
    | threw em m =>
      have hp := fetchAllProfessors_page (.threw em m) st
      simp only [step, hp.1, hp.2]
      exact h
    | replied success professors =>
      cases success with
      | true => exact ⟨le_refl _, le_max_left _ _⟩
      | false =>
        have hp := fetchAllProfessors_page (.replied false professors) st
        simp only [step, hp.1, hp.2]
        exact h
  | previous =>
    simp only [step]
    split_ifs with hc
    · refine ⟨le_max_left _ _, max_le (le_max_left _ _) ?_⟩
      exact le_trans (by omega) h.2
    · exact h
  | next =>
    simp only [step]
    split_ifs with hc
    · constructor
      · exact le_min (by omega) (by omega)
      · exact le_trans (min_le_left _ _) (le_max_right _ _)
    · exact h
  | pageInput value =>
    simp only [step]
    split_ifs with hc
    · exact goToPage_bounds parseInt _ _ value h.1 h.2
    · exact h

theorem foldl_step_page_bounds (toLowerCase : String → String)
    (parseDate : String → Option Int) (parseInt : String → Option Int) (events : List Event) :
    ∀ st : ScreenState,
      (1 ≤ st.currentPage ∧ st.currentPage ≤ max 1 (totalPages st.filteredProfessors)) →
      1 ≤ (events.foldl (step toLowerCase parseDate parseInt) st).currentPage ∧
        (events.foldl (step toLowerCase parseDate parseInt) st).currentPage ≤
          max 1 (totalPages
            (events.foldl (step toLowerCase parseDate parseInt) st).filteredProfessors) := by
  induction events with
  | nil => intro st h; exact h
  | cons e es ih =>
    intro st h
    exact ih _ (step_page_bounds toLowerCase parseDate parseInt st e h)

/-- C13: in every state of the search screen reached from the initial state by filter
changes, master-list reloads, Previous, Next and manual page entry, `currentPage` satisfies
1 <= currentPage <= max(1, totalPages). -/
theorem currentPage_bounds (toLowerCase : String → String) (parseDate : String → Option Int)
    (parseInt : String → Option Int) (events : List Event) :
    1 ≤ (run toLowerCase parseDate parseInt events).currentPage ∧
      (run toLowerCase parseDate parseInt events).currentPage ≤
        max 1 (totalPages (run toLowerCase parseDate parseInt events).filteredProfessors) := by
  unfold run
  exact foldl_step_page_bounds toLowerCase parseDate parseInt events initialState
    ⟨le_refl _, le_max_left _ _⟩

/-- C14: every recomputation of the filtered professor list sets `currentPage` to 1: the
effect itself does, and so does the screen after a change of the filter values and after a
reload that delivered a new master list; the list it stores is `applyFilters` of the filter
values and master list then held. -/
theorem recompute_resets_page (toLowerCase : String → String)
    (parseDate : String → Option Int) (parseInt : String → Option Int) (st : ScreenState)
    (filters : FilterState) (professors : Option (List Professor)) (now : Int) :
    (filtersEffect toLowerCase parseDate now st).currentPage = 1 ∧
    (filtersEffect toLowerCase parseDate now st).filteredProfessors =
      applyFilters toLowerCase st.filters st.professors ∧
    (step toLowerCase parseDate parseInt st (.filterChange filters now)).currentPage = 1 ∧
    (step toLowerCase parseDate parseInt st (.filterChange filters now)).filteredProfessors =
      applyFilters toLowerCase filters st.professors ∧
    (step toLowerCase parseDate parseInt st
      (.reload (.replied true professors) now)).currentPage = 1 ∧
    (step toLowerCase parseDate parseInt st
      (.reload (.replied true professors) now)).filteredProfessors =
      applyFilters toLowerCase st.filters (professors.getD []) :=
  ⟨rfl, rfl, rfl, rfl, rfl, rfl⟩

end ProfessorSearch.SearchPage

namespace ProfessorSearch

/-! ## Facts about `parseInt` -/

theorem leadingDigits_decimal (ds rest : List Char)
    (hds : ∀ c ∈ ds, 48 ≤ c.toNat ∧ c.toNat ≤ 57)
    (hrest : ∀ c, rest.head? = some c → ¬ (48 ≤ c.toNat ∧ c.toNat ≤ 57)) :
    leadingDigits 10 (ds ++ rest) = ds.map (fun c => c.toNat - 48) := by
  induction ds with
  | nil =>
    cases rest with
    | nil => rfl
    | cons c r =>
      have hc := hrest c rfl
      simp only [List.nil_append, leadingDigits, digitValue, hc, if_false, List.map_nil]
      split_ifs with h1 h2 <;> simp <;> omega
  | cons c cs ih =>
    have hc := hds c (List.mem_cons_self _ _)
    have hlt : c.toNat - 48 < 10 := by omega
    simp only [List.cons_append, leadingDigits, digitValue, hc, and_self, if_true, hlt,
      List.map_cons]
    exact congrArg (List.cons _) (ih (fun d hd => hds d (List.mem_cons_of_mem _ hd)))

theorem isJsWhiteSpace_digit (c : Char) (hc : 48 ≤ c.toNat ∧ c.toNat ≤ 57) :
    isJsWhiteSpace c = false := by
  unfold isJsWhiteSpace
  simp only [Bool.or_eq_false_iff, Bool.and_eq_false_iff, beq_eq_false_iff_ne, ne_eq,
    decide_eq_false_iff_not]
  omega

/-- On a text that starts with a run of decimal digits, followed by nothing or by a character
that is neither a digit nor `x` or `X`, `parseInt` reads the number that run denotes. -/
theorem parseInt_decimal (ds rest : List Char) (hne : ds ≠ [])
    (hds : ∀ c ∈ ds, 48 ≤ c.toNat ∧ c.toNat ≤ 57)
    (hrest : ∀ c, rest.head? = some c →
      ¬ (48 ≤ c.toNat ∧ c.toNat ≤ 57) ∧ c ≠ 'x' ∧ c ≠ 'X') :
    parseInt (String.mk (ds ++ rest)) =
      some ((ds.foldl (fun acc c => acc * 10 + (c.toNat - 48)) 0 : Nat) : Int) := by
  obtain ⟨c, cs, rfl⟩ : ∃ c cs, ds = c :: cs := by
    cases ds with
    | nil => exact absurd rfl hne
    | cons c cs => exact ⟨c, cs, rfl⟩
  have hc := hds c (List.mem_cons_self _ _)
  have hminus : c ≠ '-' := by
    intro h
    rw [h] at hc
    revert hc
    decide
  have hplus : c ≠ '+' := by
    intro h
    rw [h] at hc
    revert hc
    decide
  have hbase : ∀ d r, cs ++ rest = d :: r → ¬ (c = '0' ∧ (d = 'x' ∨ d = 'X')) := by
    intro d r hdr
    have hd : ¬ (d = 'x' ∨ d = 'X') := by
      cases cs with
      | nil =>
        have := hrest d (by simp only [List.nil_append] at hdr; rw [hdr]; rfl)
        exact fun h => h.elim this.2.1 this.2.2
      | cons e es =>
        have he := hds e (by simp)
        have hed : e = d := by
          simp only [List.cons_append, List.cons.injEq] at hdr
          exact hdr.1
        rw [hed] at he
        rintro (h | h) <;> rw [h] at he <;> revert he <;> decide
    exact fun h => hd h.2
  have hld := leadingDigits_decimal (c :: cs) rest hds (fun d hd => (hrest d hd).1)
  unfold parseInt
  simp only [List.cons_append, List.dropWhile_cons, isJsWhiteSpace_digit c hc,
    Bool.false_eq_true, if_false, hminus, hplus]
  simp only [List.cons_append] at hld
  cases hcr : cs ++ rest with
  | nil =>
    rw [hcr] at hld
    simp only [hld, List.map_cons, List.foldl_cons, List.foldl_map, one_mul]
  | cons d r =>
    have hb := hbase d r hcr
    rw [hcr] at hld
    simp only [hb, if_false, hld, List.map_cons, List.foldl_cons, List.foldl_map, one_mul]

end ProfessorSearch

namespace ProfessorSearch.SearchPage

/-- C15, refuted as stated: on page 3 of 5 the entries `1e3` (the number 1000, out of range)
and `2.9` (not an integer), both of which a number input accepts, move the page to 1 and to
2, because `parseInt` reads only their leading digits. -/
theorem page_entry_reads_leading_digits :
    goToPage parseInt 5 3 "1e3" = 1 ∧ goToPage parseInt 5 3 "2.9" = 2 := by
  decide

/-- C15, amended: manual page entry sets `currentPage` to the integer that `parseInt` reads
from the entered text (after an optional sign, the leading run of digits; for a text that
starts with decimal digits, the number they denote) when that integer lies in
[1, totalPages], and leaves `currentPage` unchanged when that integer is out of range or the
text has no leading digits (`NaN`). So `4` is read as 4, `1e3` as 1, `2.9` as 2, `-3` as -3,
and the empty text and `abc` as `NaN`. -/
theorem manual_page_entry (total page : Int) (value : String) :
    (∀ entered, parseInt value = some entered → 1 ≤ entered → entered ≤ total →
      goToPage parseInt total page value = entered) ∧
    (∀ entered, parseInt value = some entered → (entered < 1 ∨ total < entered) →
      goToPage parseInt total page value = page) ∧
    (parseInt value = none → goToPage parseInt total page value = page) ∧
    (∀ ds rest : List Char, ds ≠ [] → (∀ c ∈ ds, 48 ≤ c.toNat ∧ c.toNat ≤ 57) →
      (∀ c, rest.head? = some c → ¬ (48 ≤ c.toNat ∧ c.toNat ≤ 57) ∧ c ≠ 'x' ∧ c ≠ 'X') →
      parseInt (String.mk (ds ++ rest)) =
        some ((ds.foldl (fun acc c => acc * 10 + (c.toNat - 48)) 0 : Nat) : Int)) ∧
    (parseInt "4" = some 4 ∧ parseInt "1e3" = some 1 ∧ parseInt "2.9" = some 2 ∧
      parseInt "-3" = some (-3) ∧ parseInt "" = none ∧ parseInt "abc" = none) := by
  refine ⟨?_, ?_, ?_, parseInt_decimal, by decide⟩
  · intro entered he h1 h2
    simp [goToPage, he, h1, h2]
  · intro entered he hout
    have hn : ¬ (entered ≥ 1 ∧ entered ≤ total) := by omega
    simp only [goToPage, he, hn, if_false]
  · intro he
    simp [goToPage, he]

/-- C15, amended, at the entries `4`, `9` and `abc` on page 1 of 5. -/
theorem manual_page_entry_witness :
    goToPage parseInt 5 1 "4" = 4 ∧ goToPage parseInt 5 1 "9" = 1 ∧
    goToPage parseInt 5 1 "abc" = 1 :=
  ⟨(manual_page_entry 5 1 "4").1 4 (by decide) (by decide) (by decide),
   (manual_page_entry 5 1 "9").2.1 9 (by decide) (by decide),
   (manual_page_entry 5 1 "abc").2.2.1 (by decide)⟩

end ProfessorSearch.SearchPage

namespace ProfessorSearch

/-! ## Facts about `sort` and the comparison of strings -/

theorem unitsLt_asymm : ∀ a b : List Nat, unitsLt a b = true → unitsLt b a = false := by
  intro a
  induction a with
  | nil =>
    intro b _
    cases b <;> rfl
  | cons x xs ih =>
    intro b h
    cases b with
    | nil => simp [unitsLt] at h
    | cons y ys =>
      simp only [unitsLt] at h ⊢
      by_cases h1 : x < y
      · have h2 : ¬ y < x := by omega
        simp [h1, h2]
      · by_cases h2 : y < x
        · simp [h1, h2] at h
        · simp only [h1, h2, if_false] at h ⊢
          exact ih ys h

theorem unitsLt_negtrans :
    ∀ a b c : List Nat, unitsLt b a = false → unitsLt c b = false → unitsLt c a = false := by
  intro a
  induction a with
  | nil =>
    intro b c _ _
    cases c <;> rfl
  | cons x xs ih =>
    intro b c hba hcb
    cases b with
    | nil => simp [unitsLt] at hba
    | cons y ys =>
      cases c with
      | nil => simp [unitsLt] at hcb
      | cons z zs =>
        simp only [unitsLt] at hba hcb ⊢
        by_cases h1 : y < x
        · simp [h1] at hba
        · by_cases h2 : z < y
          · simp [h2] at hcb
          · by_cases h3 : x < y
            · have h4 : ¬ z < x := by omega
              have h5 : x < z := by omega
              simp [h4, h5]
            · by_cases h6 : y < z
              · have h4 : ¬ z < x := by omega
                have h5 : x < z := by omega
                simp [h4, h5]
              · have h4 : ¬ z < x := by omega
                have h5 : ¬ x < z := by omega
                simp only [h1, h3, h2, h6, if_false] at hba hcb
                simp only [h4, h5, if_false]
                exact ih ys zs hba hcb

/-- Strings are ordered by code unit, not by code point: U+1F600, whose first unit is
0xD83D, is smaller than U+FF01. -/
theorem stringLt_by_code_unit :
    stringLt (String.mk [Char.ofNat 0x1F600]) (String.mk [Char.ofNat 0xFF01]) = true ∧
    stringLt (String.mk [Char.ofNat 0xFF01]) (String.mk [Char.ofNat 0x1F600]) = false := by
  decide

theorem sort_perm {α : Type} (compareFn : α → α → Int) (l : List α) :
    (sort compareFn l).Perm l :=
  List.perm_insertionSort _ l

theorem sort_sorted {α : Type} (compareFn : α → α → Int)
    (htotal : ∀ a b, compareFn a b ≤ 0 ∨ compareFn b a ≤ 0)
    (htrans : ∀ a b c, compareFn a b ≤ 0 → compareFn b c ≤ 0 → compareFn a c ≤ 0)
    (l : List α) :
    (sort compareFn l).Pairwise (fun a b => compareFn a b ≤ 0) := by
  haveI : IsTotal α (fun a b => compareFn a b ≤ 0) := ⟨htotal⟩
  haveI : IsTrans α (fun a b => compareFn a b ≤ 0) := ⟨htrans⟩
  exact List.sorted_insertionSort (fun a b => compareFn a b ≤ 0) l

theorem filter_orderedInsert {α : Type} (compareFn : α → α → Int) (p : α → Bool)
    (hp : ∀ a b, p a = true → p b = true → compareFn a b ≤ 0) (a : α) :
    ∀ l : List α,
      (List.orderedInsert (fun a b => compareFn a b ≤ 0) a l).filter p =
        if p a = true then a :: l.filter p else l.filter p := by
  intro l
  induction l with
  | nil => by_cases ha : p a = true <;> simp [ha]
  | cons b l ih =>
    simp only [List.orderedInsert]
    by_cases hr : compareFn a b ≤ 0
    · simp only [hr, if_true]
      by_cases ha : p a = true <;> simp [ha, List.filter_cons]
    · simp only [hr, if_false]
      rw [List.filter_cons, ih]
      by_cases ha : p a = true
      · have hb : ¬ p b = true := fun hb => hr (hp a b ha hb)
        simp [ha, hb, List.filter_cons]
      · by_cases hb : p b = true <;> simp [ha, hb, List.filter_cons]

/-- The sort is stable: entries that compare as equal among themselves keep their order. -/
theorem sort_filter {α : Type} (compareFn : α → α → Int) (p : α → Bool)
    (hp : ∀ a b, p a = true → p b = true → compareFn a b ≤ 0) (l : List α) :
    (sort compareFn l).filter p = l.filter p := by
  unfold sort
  induction l with
  | nil => rfl
  | cons a l ih =>
    simp only [List.insertionSort]
    rw [filter_orderedInsert compareFn p hp, ih]
    by_cases ha : p a = true <;> simp [ha, List.filter_cons]

end ProfessorSearch

namespace ProfessorSearch.UniversitiesPage

/-! ## `applyFiltersAndSort` -/

theorem compareValues_le_asc {β : Type} (lt : β → β → Bool)
    (hasymm : ∀ x y, lt x y = true → lt y x = false) (x y : β) :
    compareValues lt "asc" x y ≤ 0 ↔ lt y x = false := by
  unfold compareValues
  simp only [beq_self_eq_true, if_true]
  cases h1 : lt x y
  · cases h2 : lt y x <;> simp
  · simp [hasymm x y h1]

theorem compareValues_le_desc {β : Type} (lt : β → β → Bool)
    (hasymm : ∀ x y, lt x y = true → lt y x = false) (sortOrder : String)
    (hso : sortOrder ≠ "asc") (x y : β) :
    compareValues lt sortOrder x y ≤ 0 ↔ lt x y = false := by
  unfold compareValues
  have hb : (sortOrder == "asc") = false := beq_false_of_ne hso
  simp only [hb, Bool.false_eq_true, if_false]
  cases h1 : lt y x
  · cases h2 : lt x y <;> simp
  · simp [hasymm y x h1]

/-- Sorting by a sort value: no entry is followed by one with a smaller value (`'asc'`), or by
one with a larger value (any other order). -/
theorem sort_compareValues_sorted {α β : Type} (lt : β → β → Bool)
    (hasymm : ∀ x y, lt x y = true → lt y x = false)
    (hnt : ∀ x y z, lt y x = false → lt z y = false → lt z x = false)
    (key : α → β) (sortOrder : String) (l : List α) :
    (sortOrder = "asc" →
      (sort (fun a b => compareValues lt sortOrder (key a) (key b)) l).Pairwise
        (fun a b => lt (key b) (key a) = false)) ∧
    (sortOrder ≠ "asc" →
      (sort (fun a b => compareValues lt sortOrder (key a) (key b)) l).Pairwise
        (fun a b => lt (key a) (key b) = false)) := by
  constructor
  · intro hso
    subst hso
    have h := sort_sorted (fun a b => compareValues lt "asc" (key a) (key b))
      (fun a b => by
        simp only [compareValues_le_asc lt hasymm]
        cases h : lt (key b) (key a)
        · exact Or.inl rfl
        · exact Or.inr (hasymm _ _ h))
      (fun a b c hab hbc => by
        simp only [compareValues_le_asc lt hasymm] at hab hbc ⊢
        exact hnt _ _ _ hab hbc) l
    exact h.imp (fun {a b} hab => (compareValues_le_asc lt hasymm _ _).mp hab)
  · intro hso
    have h := sort_sorted (fun a b => compareValues lt sortOrder (key a) (key b))
      (fun a b => by
        simp only [compareValues_le_desc lt hasymm sortOrder hso]
        cases h : lt (key a) (key b)
        · exact Or.inl rfl
        · exact Or.inr (hasymm _ _ h))
      (fun a b c hab hbc => by
        simp only [compareValues_le_desc lt hasymm sortOrder hso] at hab hbc ⊢
        exact hnt _ _ _ hbc hab) l
    exact h.imp (fun {a b} hab => (compareValues_le_desc lt hasymm sortOrder hso _ _).mp hab)

/-- Entries with the same sort value compare as equal. -/
theorem compareValues_self {β : Type} (lt : β → β → Bool)
    (hasymm : ∀ x y, lt x y = true → lt y x = false) (sortOrder : String) (x : β) :
    compareValues lt sortOrder x x ≤ 0 := by
  have hx : lt x x = false := by
    cases h : lt x x
    · rfl
    · have := hasymm x x h
      rw [h] at this
      exact absurd this (by decide)
  unfold compareValues
  simp [hx]

theorem intLt_asymm : ∀ x y : Int, decide (x < y) = true → decide (y < x) = false := by
  intro x y h
  have h' : x < y := of_decide_eq_true h
  exact decide_eq_false (by omega)

theorem intLt_negtrans :
    ∀ x y z : Int, decide (y < x) = false → decide (z < y) = false → decide (z < x) = false := by
  intro x y z h1 h2
  have h1' : ¬ y < x := of_decide_eq_false h1
  have h2' : ¬ z < y := of_decide_eq_false h2
  exact decide_eq_false (by omega)

theorem stringLt_asymm : ∀ x y : String, stringLt x y = true → stringLt y x = false :=
  fun x y h => unitsLt_asymm (codeUnits x) (codeUnits y) h

theorem stringLt_negtrans :
    ∀ x y z : String, stringLt y x = false → stringLt z y = false → stringLt z x = false :=
  fun x y z h1 h2 => unitsLt_negtrans (codeUnits x) (codeUnits y) (codeUnits z) h1 h2

theorem compareFn_ranking (toLowerCase : String → String) (f : UniversityFilters)
    (h : f.sortBy = "ranking") :
    compareFn toLowerCase f = fun a b =>
      compareValues (fun x y : Int => decide (x < y)) f.sortOrder
        (rankingValue a) (rankingValue b) := by
  funext a b
  simp [compareFn, h]

theorem compareFn_name (toLowerCase : String → String) (f : UniversityFilters)
    (h : f.sortBy ≠ "ranking") :
    compareFn toLowerCase f = fun a b =>
      compareValues stringLt f.sortOrder (nameValue toLowerCase a) (nameValue toLowerCase b) := by
  funext a b
  have hb : (f.sortBy == "ranking") = false := beq_false_of_ne h
  simp [compareFn, hb]

theorem sorted_by_ranking (toLowerCase : String → String) (f : UniversityFilters)
    (h : f.sortBy = "ranking") (l : List University) :
    (f.sortOrder = "asc" →
      (sort (compareFn toLowerCase f) l).Pairwise
        (fun a b => rankingValue a ≤ rankingValue b)) ∧
    (f.sortOrder ≠ "asc" →
      (sort (compareFn toLowerCase f) l).Pairwise
        (fun a b => rankingValue b ≤ rankingValue a)) := by
  rw [compareFn_ranking toLowerCase f h]
  have hs := sort_compareValues_sorted (fun x y : Int => decide (x < y)) intLt_asymm
    intLt_negtrans rankingValue f.sortOrder l
  constructor
  · intro hso
    exact (hs.1 hso).imp (fun {a b} hab => by
      have : ¬ rankingValue b < rankingValue a := of_decide_eq_false hab
      omega)
  · intro hso
    exact (hs.2 hso).imp (fun {a b} hab => by
      have : ¬ rankingValue a < rankingValue b := of_decide_eq_false hab
      omega)

theorem sorted_by_name (toLowerCase : String → String) (f : UniversityFilters)
    (h : f.sortBy ≠ "ranking") (l : List University) :
    (f.sortOrder = "asc" →
      (sort (compareFn toLowerCase f) l).Pairwise
        (fun a b => stringLt (toLowerCase b.name) (toLowerCase a.name) = false)) ∧
    (f.sortOrder ≠ "asc" →
      (sort (compareFn toLowerCase f) l).Pairwise
        (fun a b => stringLt (toLowerCase a.name) (toLowerCase b.name) = false)) := by
  rw [compareFn_name toLowerCase f h]
  exact sort_compareValues_sorted stringLt stringLt_asymm stringLt_negtrans
    (nameValue toLowerCase) f.sortOrder l

theorem stable_by_ranking (toLowerCase : String → String) (f : UniversityFilters)
    (h : f.sortBy = "ranking") (l : List University) (k : Int) :
    (sort (compareFn toLowerCase f) l).filter (fun u => decide (rankingValue u = k)) =
      l.filter (fun u => decide (rankingValue u = k)) := by
  apply sort_filter
  intro a b ha hb
  rw [compareFn_ranking toLowerCase f h]
  have ha' : rankingValue a = k := of_decide_eq_true ha
  have hb' : rankingValue b = k := of_decide_eq_true hb
  simp only [ha', hb']
  exact compareValues_self _ intLt_asymm _ _

theorem stable_by_name (toLowerCase : String → String) (f : UniversityFilters)
    (h : f.sortBy ≠ "ranking") (l : List University) (k : String) :
    (sort (compareFn toLowerCase f) l).filter (fun u => decide (toLowerCase u.name = k)) =
      l.filter (fun u => decide (toLowerCase u.name = k)) := by
  apply sort_filter
  intro a b ha hb
  rw [compareFn_name toLowerCase f h]
  have ha' : toLowerCase a.name = k := of_decide_eq_true ha
  have hb' : toLowerCase b.name = k := of_decide_eq_true hb
  simp only [nameValue, ha', hb']
  exact compareValues_self _ stringLt_asymm _ _

end ProfessorSearch.UniversitiesPage

namespace ProfessorSearch.UniversitiesPage

theorem guarded_filter_sublist {α : Type} (c : Bool) (p : α → Bool) (l : List α) :
    (if c = true then l.filter p else l).Sublist l := by
  cases c
  · exact List.Sublist.refl _
  · exact List.filter_sublist _

theorem filterStateCallback_iff (toLowerCase : String → String) (filterState : String)
    (u : University) :
    filterStateCallback toLowerCase filterState u = true ↔
      ∃ s, u.state = some s ∧ s ≠ "" ∧
        (toLowerCase filterState).data <:+: (toLowerCase s).data := by
  unfold filterStateCallback
  cases hs : u.state with
  | none => simp
  | some s => simp [includes_iff]

theorem rankingMinCallback_iff (min : Option Int) (u : University) :
    rankingMinCallback min u = true ↔
      ∃ r m, u.ranking = some r ∧ min = some m ∧ m ≤ r := by
  unfold rankingMinCallback
  cases hr : u.ranking <;> cases hm : min <;> simp

theorem rankingMaxCallback_iff (max : Option Int) (u : University) :
    rankingMaxCallback max u = true ↔
      ∃ r m, u.ranking = some r ∧ max = some m ∧ r ≤ m := by
  unfold rankingMaxCallback
  cases hr : u.ranking <;> cases hm : max <;> simp

theorem mem_applyFiltersOnly (toLowerCase : String → String) (parseInt : String → Option Int)
    (f : UniversityFilters) (roster : List University) (u : University) :
    u ∈ applyFiltersOnly toLowerCase parseInt f roster ↔
      u ∈ roster ∧
      (f.filterName ≠ "" → (toLowerCase f.filterName).data <:+: (toLowerCase u.name).data) ∧
      (f.filterState ≠ "" →
        ∃ s, u.state = some s ∧ s ≠ "" ∧
          (toLowerCase f.filterState).data <:+: (toLowerCase s).data) ∧
      (f.filterRankingMin ≠ "" →
        ∃ r m, u.ranking = some r ∧ parseInt f.filterRankingMin = some m ∧ m ≤ r) ∧
      (f.filterRankingMax ≠ "" →
        ∃ r m, u.ranking = some r ∧ parseInt f.filterRankingMax = some m ∧ r ≤ m) := by
  unfold applyFiltersOnly
  by_cases h1 : f.filterName = "" <;> by_cases h2 : f.filterState = "" <;>
    by_cases h3 : f.filterRankingMin = "" <;> by_cases h4 : f.filterRankingMax = "" <;>
    simp only [h1, h2, h3, h4, bne_self_eq_false, Bool.false_eq_true, if_false, bne_iff_ne,
      ne_eq, not_false_eq_true, not_true_eq_false, if_true, List.mem_filter,
      filterStateCallback_iff, rankingMinCallback_iff, rankingMaxCallback_iff,
      filterNameCallback, includes_iff, and_assoc, true_implies, false_implies, and_true,
      true_and]

theorem applyFiltersOnly_sublist (toLowerCase : String → String)
    (parseInt : String → Option Int) (f : UniversityFilters) (roster : List University) :
    (applyFiltersOnly toLowerCase parseInt f roster).Sublist roster := by
  unfold applyFiltersOnly
  exact ((((guarded_filter_sublist _ _ _).trans (guarded_filter_sublist _ _ _)).trans
    (guarded_filter_sublist _ _ _)).trans (guarded_filter_sublist _ _ _))

/-- C16, refuted as stated: sorted by ranking in descending order, the university with a null
ranking comes before the one ranked 1; and in ascending order it comes before one ranked
10000. -/
theorem null_ranking_not_last :
    applyFiltersAndSort asciiToLowerCase (fun _ => none)
        { sortBy := "ranking", sortOrder := "desc" }
        [{ id := some 1, name := "A", ranking := some 1 },
         { id := some 2, name := "B", ranking := none }] =
      [{ id := some 2, name := "B", ranking := none },
       { id := some 1, name := "A", ranking := some 1 }] ∧
    applyFiltersAndSort asciiToLowerCase (fun _ => none)
        { sortBy := "ranking", sortOrder := "asc" }
        [{ id := some 3, name := "C", ranking := some 10000 },
         { id := some 2, name := "B", ranking := none }] =
      [{ id := some 2, name := "B", ranking := none },
       { id := some 3, name := "C", ranking := some 10000 }] := by
  decide

/-- C16, amended: a null ranking is ordered as the ranking 9999. Sorted by ranking in
ascending order, every university with a null ranking appears after every university with a
non-null ranking below 9999; sorted by ranking in descending order, it appears before every
such university. -/
theorem null_ranking_position (toLowerCase : String → String)
    (parseInt : String → Option Int) (f : UniversityFilters) (roster : List University)
    (hby : f.sortBy = "ranking") :
    (f.sortOrder = "asc" →
      (applyFiltersAndSort toLowerCase parseInt f roster).Pairwise
        (fun a b => ¬ (a.ranking = none ∧ ∃ r, b.ranking = some r ∧ r < 9999))) ∧
    (f.sortOrder ≠ "asc" →
      (applyFiltersAndSort toLowerCase parseInt f roster).Pairwise
        (fun a b => ¬ (b.ranking = none ∧ ∃ r, a.ranking = some r ∧ r < 9999))) := by
  have hs := sorted_by_ranking toLowerCase f hby (applyFiltersOnly toLowerCase parseInt f roster)
  have key : ∀ a b : University, rankingValue a ≤ rankingValue b →
      ¬ (a.ranking = none ∧ ∃ r, b.ranking = some r ∧ r < 9999) := by
    rintro a b hab ⟨ha, r, hb, hr⟩
    simp only [rankingValue, ha, hb] at hab
    omega
  constructor
  · intro hso
    exact (hs.1 hso).imp (fun {a b} hab => key a b hab)
  · intro hso
    exact (hs.2 hso).imp (fun {a b} hab => key b a hab)

/-- C16, amended, at a roster with one ranked and one unranked university. -/
theorem null_ranking_position_witness :
    (applyFiltersAndSort asciiToLowerCase (fun _ => none)
        { sortBy := "ranking", sortOrder := "asc" }
        [{ id := some 2, name := "B", ranking := none },
         { id := some 1, name := "A", ranking := some 1 }]).Pairwise
      (fun a b => ¬ (a.ranking = none ∧ ∃ r, b.ranking = some r ∧ r < 9999)) :=
  (null_ranking_position asciiToLowerCase (fun _ => none)
    { sortBy := "ranking", sortOrder := "asc" }
    [{ id := some 2, name := "B", ranking := none },
     { id := some 1, name := "A", ranking := some 1 }] rfl).1 rfl

end ProfessorSearch.UniversitiesPage

namespace ProfessorSearch.UniversitiesPage

theorem rankingValue_eq (u : University) : rankingValue u = u.ranking.getD 9999 := by
  unfold rankingValue
  cases u.ranking <;> rfl

/-- C17: the list of `applyFiltersAndSort` is a permutation of the filtered entries, which
are in roster order; sorted by ranking (null as 9999) or by lower-cased name, its sort values
never decrease for `"asc"` and never increase for any other order (`"desc"`); the entries
with one and the same sort value are in the order they have among the filtered entries; and
a roster with rankings null, 5, 2 sorted by ranking ascending comes out as 2, 5, null. -/
theorem applyFiltersAndSort_sorted (toLowerCase : String → String)
    (parseInt : String → Option Int) (f : UniversityFilters) (roster : List University) :
    (applyFiltersAndSort toLowerCase parseInt f roster).Perm
      (applyFiltersOnly toLowerCase parseInt f roster) ∧
    (applyFiltersOnly toLowerCase parseInt f roster).Sublist roster ∧
    (f.sortBy = "ranking" → f.sortOrder = "asc" →
      (applyFiltersAndSort toLowerCase parseInt f roster).Pairwise
        (fun a b => a.ranking.getD 9999 ≤ b.ranking.getD 9999)) ∧
    (f.sortBy = "ranking" → f.sortOrder ≠ "asc" →
      (applyFiltersAndSort toLowerCase parseInt f roster).Pairwise
        (fun a b => b.ranking.getD 9999 ≤ a.ranking.getD 9999)) ∧
    (f.sortBy ≠ "ranking" → f.sortOrder = "asc" →
      (applyFiltersAndSort toLowerCase parseInt f roster).Pairwise
        (fun a b => stringLt (toLowerCase b.name) (toLowerCase a.name) = false)) ∧
    (f.sortBy ≠ "ranking" → f.sortOrder ≠ "asc" →
      (applyFiltersAndSort toLowerCase parseInt f roster).Pairwise
        (fun a b => stringLt (toLowerCase a.name) (toLowerCase b.name) = false)) ∧
    (f.sortBy = "ranking" → ∀ k : Int,
      (applyFiltersAndSort toLowerCase parseInt f roster).filter
          (fun u => decide (u.ranking.getD 9999 = k)) =
        (applyFiltersOnly toLowerCase parseInt f roster).filter
          (fun u => decide (u.ranking.getD 9999 = k))) ∧
    (f.sortBy ≠ "ranking" → ∀ k : String,
      (applyFiltersAndSort toLowerCase parseInt f roster).filter
          (fun u => decide (toLowerCase u.name = k)) =
        (applyFiltersOnly toLowerCase parseInt f roster).filter
          (fun u => decide (toLowerCase u.name = k))) ∧
    applyFiltersAndSort asciiToLowerCase (fun _ => none)
        { sortBy := "ranking", sortOrder := "asc" }
        [{ id := some 1, name := "B", ranking := none },
         { id := some 2, name := "C", ranking := some 5 },
         { id := some 3, name := "A", ranking := some 2 }] =
      [{ id := some 3, name := "A", ranking := some 2 },
       { id := some 2, name := "C", ranking := some 5 },
       { id := some 1, name := "B", ranking := none }] := by
  refine ⟨sort_perm _ _, applyFiltersOnly_sublist toLowerCase parseInt f roster,
    ?_, ?_, ?_, ?_, ?_, ?_, by decide⟩
  · intro hby hso
    have h := (sorted_by_ranking toLowerCase f hby
      (applyFiltersOnly toLowerCase parseInt f roster)).1 hso
    simp only [rankingValue_eq] at h
    exact h
  · intro hby hso
    have h := (sorted_by_ranking toLowerCase f hby
      (applyFiltersOnly toLowerCase parseInt f roster)).2 hso
    simp only [rankingValue_eq] at h
    exact h
  · intro hby hso
    exact (sorted_by_name toLowerCase f hby _).1 hso
  · intro hby hso
    exact (sorted_by_name toLowerCase f hby _).2 hso
  · intro hby k
    have h := stable_by_ranking toLowerCase f hby
      (applyFiltersOnly toLowerCase parseInt f roster) k
    simp only [rankingValue_eq] at h
    exact h
  · intro hby k
    exact stable_by_name toLowerCase f hby _ k

/-- C17 at a roster sorted by name in descending order. -/
theorem applyFiltersAndSort_sorted_witness :
    (applyFiltersAndSort asciiToLowerCase (fun _ => none)
        { sortBy := "name", sortOrder := "desc" }
        [{ id := some 1, name := "MIT" }, { id := some 2, name := "Stanford" },
         { id := some 3, name := "mit" }]).Pairwise
      (fun a b => stringLt (asciiToLowerCase a.name) (asciiToLowerCase b.name) = false) ∧
    (applyFiltersAndSort asciiToLowerCase (fun _ => none)
        { sortBy := "name", sortOrder := "desc" }
        [{ id := some 1, name := "MIT" }, { id := some 2, name := "Stanford" },
         { id := some 3, name := "mit" }]).filter
        (fun u => decide (asciiToLowerCase u.name = "mit")) =
      (applyFiltersOnly asciiToLowerCase (fun _ => none)
        { sortBy := "name", sortOrder := "desc" }
        [{ id := some 1, name := "MIT" }, { id := some 2, name := "Stanford" },
         { id := some 3, name := "mit" }]).filter
        (fun u => decide (asciiToLowerCase u.name = "mit")) :=
  ⟨(applyFiltersAndSort_sorted asciiToLowerCase (fun _ => none)
      { sortBy := "name", sortOrder := "desc" } _).2.2.2.2.2.1 (by decide) (by decide),
   (applyFiltersAndSort_sorted asciiToLowerCase (fun _ => none)
      { sortBy := "name", sortOrder := "desc" } _).2.2.2.2.2.2.2.1 (by decide) "mit"⟩

/-- C18: `applyFiltersAndSort` keeps exactly the universities of the roster whose name
contains `filterName` case-insensitively (when set), whose state is present and contains
`filterState` case-insensitively (when set), whose ranking is non-null and at least the
minimum (when set) and whose ranking is non-null and at most the maximum (when set), each as
often as the roster has it; so a university with a null ranking is excluded whenever either
bound is set. -/
theorem applyFiltersAndSort_keeps (toLowerCase : String → String)
    (parseInt : String → Option Int) (f : UniversityFilters) (roster : List University) :
    (∀ u, u ∈ applyFiltersAndSort toLowerCase parseInt f roster ↔
      u ∈ roster ∧
      (f.filterName ≠ "" → (toLowerCase f.filterName).data <:+: (toLowerCase u.name).data) ∧
      (f.filterState ≠ "" →
        ∃ s, u.state = some s ∧ s ≠ "" ∧
          (toLowerCase f.filterState).data <:+: (toLowerCase s).data) ∧
      (f.filterRankingMin ≠ "" →
        ∃ r m, u.ranking = some r ∧ parseInt f.filterRankingMin = some m ∧ m ≤ r) ∧
      (f.filterRankingMax ≠ "" →
        ∃ r m, u.ranking = some r ∧ parseInt f.filterRankingMax = some m ∧ r ≤ m)) ∧
    (∀ u, u ∈ applyFiltersAndSort toLowerCase parseInt f roster →
      (applyFiltersAndSort toLowerCase parseInt f roster).count u = roster.count u) ∧
    (∀ u, u.ranking = none → (f.filterRankingMin ≠ "" ∨ f.filterRankingMax ≠ "") →
      u ∉ applyFiltersAndSort toLowerCase parseInt f roster) := by
  have hmem : ∀ u, u ∈ applyFiltersAndSort toLowerCase parseInt f roster ↔
      u ∈ applyFiltersOnly toLowerCase parseInt f roster :=
    fun u => (sort_perm _ _).mem_iff
  refine ⟨fun u => (hmem u).trans (mem_applyFiltersOnly toLowerCase parseInt f roster u),
    ?_, ?_⟩
  · intro u hu
    have hu' := (hmem u).mp hu
    have hperm : (applyFiltersAndSort toLowerCase parseInt f roster).Perm
        (applyFiltersOnly toLowerCase parseInt f roster) := sort_perm _ _
    rw [hperm.count_eq]
    unfold applyFiltersOnly at hu' ⊢
    by_cases h1 : f.filterName = "" <;> by_cases h2 : f.filterState = "" <;>
      by_cases h3 : f.filterRankingMin = "" <;> by_cases h4 : f.filterRankingMax = "" <;>
      simp only [h1, h2, h3, h4, bne_self_eq_false, Bool.false_eq_true, if_false, bne_iff_ne,
        ne_eq, not_false_eq_true, if_true, List.mem_filter] at hu' ⊢ <;>
      simp [List.count_filter, hu']
  · intro u hr hset hu
    have h := (mem_applyFiltersOnly toLowerCase parseInt f roster u).mp ((hmem u).mp hu)
    rcases hset with hmin | hmax
    · obtain ⟨r, _, hr', _⟩ := h.2.2.2.1 hmin
      rw [hr] at hr'
      exact Option.noConfusion hr'
    · obtain ⟨r, _, hr', _⟩ := h.2.2.2.2 hmax
      rw [hr] at hr'
      exact Option.noConfusion hr'

end ProfessorSearch.UniversitiesPage

namespace ProfessorSearch

/-! ## Loading the master lists -/

theorem catchMessage_ne_none (responseError message : Option String) (fallback : String) :
    catchMessage responseError message fallback ≠ none := by
  unfold catchMessage
  generalize orElse responseError message = first
  unfold orElse
  split_ifs with h
  · intro hn
    rw [hn] at h
    simp [truthy] at h
  · simp

end ProfessorSearch

namespace ProfessorSearch.UniversitiesPage

/-- C19, refuted as stated: when the backend replies `success: false` to the university
request, `fetchData` sets no error and replaces a held roster by the merge of an empty
persisted list, here by the single placeholder `Stanford`. -/
theorem fetchData_success_false :
    (fetchData asciiToLowerCase (.replied false none)
        (.replied true (some [{ universityName := some "Stanford" }]))
        { allUniversities := [{ id := some 1, name := "MIT" }],
          universities := [{ id := some 1, name := "MIT" }] }).error = none ∧
    (fetchData asciiToLowerCase (.replied false none)
        (.replied true (some [{ universityName := some "Stanford" }]))
        { allUniversities := [{ id := some 1, name := "MIT" }],
          universities := [{ id := some 1, name := "MIT" }] }).allUniversities =
      [{ id := none, name := "Stanford", status := some "pending",
         fromProfessors := some true }] := by
  decide

/-- C19, amended: when one of the two requests of `fetchData` throws, `fetchData` sets a
non-null error and leaves the previously held master roster unchanged; a reply with
`success: false` to the university request is not treated as a failure: the persisted list
counts as empty, no error is set and the master roster becomes the merge of the empty list
with the professors' inferred names. -/
theorem fetchData_failure (toLowerCase : String → String) (st : RosterState) :
    (∀ responseError message profResponse,
      (fetchData toLowerCase (.threw responseError message) profResponse st).error ≠ none ∧
      (fetchData toLowerCase (.threw responseError message) profResponse st).allUniversities =
        st.allUniversities ∧
      (fetchData toLowerCase (.threw responseError message) profResponse st).universities =
        st.universities) ∧
    (∀ success items responseError message,
      (fetchData toLowerCase (.replied success items)
        (.threw responseError message) st).error ≠ none ∧
      (fetchData toLowerCase (.replied success items)
        (.threw responseError message) st).allUniversities = st.allUniversities ∧
      (fetchData toLowerCase (.replied success items)
        (.threw responseError message) st).universities = st.universities) ∧
    (∀ items profSuccess professors,
      (fetchData toLowerCase (.replied false items)
        (.replied profSuccess professors) st).error = none ∧
      (fetchData toLowerCase (.replied false items)
        (.replied profSuccess professors) st).allUniversities =
        merged toLowerCase [] (if profSuccess then professors.getD [] else [])) := by
  refine ⟨?_, ?_, ?_⟩
  · intro responseError message profResponse
    exact ⟨catchMessage_ne_none _ _ _, rfl, rfl⟩
  · intro success items responseError message
    exact ⟨catchMessage_ne_none _ _ _, rfl, rfl⟩
  · intro items profSuccess professors
    exact ⟨rfl, rfl⟩

end ProfessorSearch.UniversitiesPage

namespace ProfessorSearch.SearchPage

/-- C20: when the request throws or the backend replies `success: false`,
`fetchAllProfessors` sets a non-null error and leaves the master professor list unchanged; on
success it stores the returned array verbatim as the master list (the empty list when the
reply carries none) and leaves the error null. -/
theorem fetchAllProfessors_outcome (st : ScreenState) :
    (∀ responseError message,
      (fetchAllProfessors (.threw responseError message) st).error ≠ none ∧
      (fetchAllProfessors (.threw responseError message) st).professors = st.professors) ∧
    (∀ items,
      (fetchAllProfessors (.replied false items) st).error ≠ none ∧
      (fetchAllProfessors (.replied false items) st).professors = st.professors) ∧
    (∀ returned,
      (fetchAllProfessors (.replied true (some returned)) st).professors = returned ∧
      (fetchAllProfessors (.replied true (some returned)) st).error = none) ∧
    (fetchAllProfessors (.replied true none) st).professors = [] := by
  refine ⟨?_, ?_, ?_, rfl⟩
  · intro responseError message
    exact ⟨catchMessage_ne_none _ _ _, rfl⟩
  · intro items
    exact ⟨by simp [fetchAllProfessors], rfl⟩
  · intro returned
    exact ⟨rfl, rfl⟩

end ProfessorSearch.SearchPage

namespace ProfessorSearch.SearchPage

/-! ## Edit form, save and delete -/

/-- C21, evaluated at an edit form with `mailed` true and an emptied mailing date, and one with
`followUpMailSent` true and an emptied follow-up date: the payload of `handleSave` carries the
flag `true` and no date key at all, while a non-empty date is carried. -/
theorem handleSave_flag_without_date :
    (handleSaveUpdates { id := .num 7, mailed := .bool true, mailingDate := .null }).mailed =
      .bool true ∧
    (handleSaveUpdates { id := .num 7, mailed := .bool true, mailingDate := .null }).mailingDate =
      .undefined ∧
    (handleSaveUpdates
      { id := .num 7, followUpMailSent := .bool true,
        followUpMailDate := .null }).followUpMailSent = .bool true ∧
    (handleSaveUpdates
      { id := .num 7, followUpMailSent := .bool true,
        followUpMailDate := .null }).followUpMailDate = .undefined ∧
    (onMailingDateChange
      (onMailedChange { id := .num 7 } true "2026-11-05T10:00") "").mailingDate = .null ∧
    (handleSaveUpdates
      { id := .num 7, mailed := .bool true,
        mailingDate := .str "2026-11-05T10:00" }).mailingDate = .str "2026-11-05T10:00" := by
  decide

/-- C22: when the professor being edited has `mailed` false, the payload of `handleSave` has
`mailed` false and `mailingDate` null, and unchecking the Mailed box sets `mailed` to false
and `mailingDate` to null in the edit form, every other field unchanged; the same holds for
`followUpMailSent` and `followUpMailDate`. -/
theorem unmailed_clears_date (e : ProfessorForm) (nowText : String) :
    (e.mailed = .bool false →
      (handleSaveUpdates e).mailed = .bool false ∧ (handleSaveUpdates e).mailingDate = .null) ∧
    (e.followUpMailSent = .bool false →
      (handleSaveUpdates e).followUpMailSent = .bool false ∧
        (handleSaveUpdates e).followUpMailDate = .null) ∧
    onMailedChange e false nowText = { e with mailed := .bool false, mailingDate := .null } ∧
    onFollowUpMailSentChange e false nowText =
      { e with followUpMailSent := .bool false, followUpMailDate := .null } ∧
    (∀ putResolves, Request.putProfessor e.id (handleSaveUpdates e) ∈
      handleSave true e putResolves) := by
  refine ⟨?_, ?_, rfl, rfl, ?_⟩
  · intro h
    simp [handleSaveUpdates, h, JsValue.truthy]
  · intro h
    simp [handleSaveUpdates, h, JsValue.truthy]
  · intro putResolves
    simp [handleSave]

/-- C22 at an edit form whose flags are both false. -/
theorem unmailed_clears_date_witness :
    ((handleSaveUpdates
        { id := .num 7, mailed := .bool false, mailingDate := .str "2026-11-05T10:00",
          followUpMailSent := .bool false }).mailed = .bool false ∧
      (handleSaveUpdates
        { id := .num 7, mailed := .bool false, mailingDate := .str "2026-11-05T10:00",
          followUpMailSent := .bool false }).mailingDate = .null) ∧
    ((handleSaveUpdates
        { id := .num 7, mailed := .bool false, mailingDate := .str "2026-11-05T10:00",
          followUpMailSent := .bool false }).followUpMailSent = .bool false ∧
      (handleSaveUpdates
        { id := .num 7, mailed := .bool false, mailingDate := .str "2026-11-05T10:00",
          followUpMailSent := .bool false }).followUpMailDate = .null) :=
  ⟨(unmailed_clears_date _ "").1 rfl, (unmailed_clears_date _ "").2.1 rfl⟩

/-- C23: in the edit form and in the add form, setting `recruitingPhdStudents` to `"Yes"`
gives the record with `recruitingPhdStudents` and `currentlyRecruiting` both `"Yes"` and every
other field unchanged (so a record with `currentlyRecruiting` `"No"` ends with `"Yes"`);
setting it to any other value changes `recruitingPhdStudents` only. -/
theorem recruiting_coupling (form : ProfessorForm) (value : String) :
    onRecruitingPhdStudentsChange form "Yes" =
      { form with recruitingPhdStudents := .str "Yes", currentlyRecruiting := .str "Yes" } ∧
    onNewRecruitingPhdStudentsChange form "Yes" =
      { form with recruitingPhdStudents := .str "Yes", currentlyRecruiting := .str "Yes" } ∧
    (onRecruitingPhdStudentsChange { form with currentlyRecruiting := .str "No" }
      "Yes").currentlyRecruiting = .str "Yes" ∧
    (value ≠ "Yes" →
      onRecruitingPhdStudentsChange form value =
        { form with recruitingPhdStudents := .str value } ∧
      onNewRecruitingPhdStudentsChange form value =
        { form with recruitingPhdStudents := .str value } ∧
      (onRecruitingPhdStudentsChange form value).currentlyRecruiting =
        form.currentlyRecruiting ∧
      (onNewRecruitingPhdStudentsChange form value).currentlyRecruiting =
        form.currentlyRecruiting) := by
  refine ⟨rfl, rfl, rfl, ?_⟩
  intro hv
  have hb : (value == "Yes") = false := beq_false_of_ne hv
  simp [onRecruitingPhdStudentsChange, onNewRecruitingPhdStudentsChange, hb]

/-- C23 at the value `"No"` on a record with `currentlyRecruiting` `"Yes"`. -/
theorem recruiting_coupling_witness :
    (onRecruitingPhdStudentsChange
      { name := .str "Smith", currentlyRecruiting := .str "Yes" } "No").currentlyRecruiting =
      .str "Yes" :=
  ((recruiting_coupling { name := .str "Smith", currentlyRecruiting := .str "Yes" } "No").2.2.2
    (by decide)).2.2.1

/-- C24, refuted as stated: after a 401 response to the professor list fetch the inline error
of the search screen is set, to the message of the rejected request. -/
theorem unauthorized_sets_error :
    (fetchAllProfessorsRejected
      { status := some 401, message := some "Request failed with status code 401" }
      { authToken := some "token", href := "#/search" } initialState).2.error =
      some "Request failed with status code 401" := by
  decide

/-- C24, amended: when the professor list fetch receives a 401 response, the auth token is
removed from browser storage and the location is set to `#/login` (forced logout); the
rejected request still reaches the `catch` block of `fetchAllProfessors`, which sets a
non-null inline error and leaves the master list unchanged. -/
theorem unauthorized_logout (error : AxiosError) (b : Browser) (st : ScreenState)
    (h : error.status = some 401) :
    (fetchAllProfessorsRejected error b st).1.authToken = none ∧
    (fetchAllProfessorsRejected error b st).1.href = "#/login" ∧
    (fetchAllProfessorsRejected error b st).1.userRole = b.userRole ∧
    (fetchAllProfessorsRejected error b st).2.error ≠ none ∧
    (fetchAllProfessorsRejected error b st).2.professors = st.professors := by
  refine ⟨?_, ?_, ?_, catchMessage_ne_none _ _ _, rfl⟩ <;>
    simp [fetchAllProfessorsRejected, responseErrorInterceptor, h]

/-- C24, amended, at a session with a token. -/
theorem unauthorized_logout_witness :
    (fetchAllProfessorsRejected
      { status := some 401, message := some "Request failed with status code 401" }
      { authToken := some "token", href := "#/search" } initialState).1.authToken = none :=
  (unauthorized_logout _ _ _ rfl).1

/-- C26, evaluated for a user without `canEdit`: `handleSave` and `handleDeleteProfessor`
send nothing, but a click on the priority star of the card of professor 7 sends
`PUT /professor/7` with `priority: true`; its handler does not read `canEdit`. -/
theorem priority_star_unguarded (e : ProfessorForm) (id : JsValue) (putResolves : Bool)
    (reply : Option Bool) :
    handleSave false e putResolves = [] ∧
    handleDeleteProfessor false id reply = [] ∧
    priorityClick { id := 7, priority := some false } true =
      [.putProfessor (.num 7) { priority := .bool true }, .getProfessors] := by
  refine ⟨rfl, rfl, by decide⟩

end ProfessorSearch.SearchPage

namespace ProfessorSearch.TaskListPage

/-- C25, evaluated at two priority professors with the same deadline, `Zed` listed before
`Amy`: `sortedProfessors` leaves `Zed` before `Amy`, although `Amy` sorts before `Zed` by
name; for two professors with deadlines the comparator returns the difference of the dates
and never compares the names. -/
theorem equal_deadlines_keep_input_order :
    sortedProfessors (fun s => if s = "2026-12-01" then some 1796083200000 else none)
        defaultCompare
        [{ id := 1, name := some "Zed", deadline := some "2026-12-01" },
         { id := 2, name := some "Amy", deadline := some "2026-12-01" }] =
      [{ id := 1, name := some "Zed", deadline := some "2026-12-01" },
       { id := 2, name := some "Amy", deadline := some "2026-12-01" }] ∧
    defaultCompare "Amy" "Zed" = -1 := by
  decide

end ProfessorSearch.TaskListPage

namespace ProfessorSearch.UserPermissions

/-- C27: when browser storage holds no `userRole`, `useUserPermissions` takes the role
`"admin"` and grants `canAddProfessors`, `canUseAISearch`, `canEdit` and `canView` without a
request to the backend; for the stored role `"admin"` all four are true; and for any stored
role other than `"admin"` and `"user"` only `canView` is true. -/
theorem permissions_by_role (b : Browser) (reply : ProfileReply) :
    (b.userRole = none →
      useUserPermissions b reply =
        { permissions :=
            { canAddProfessors := true, canUseAISearch := true, canEdit := true,
              canView := true, loading := false }
          userRole := "admin"
          requests := [] }) ∧
    (b.userRole = some "admin" →
      (useUserPermissions b reply).permissions =
        { canAddProfessors := true, canUseAISearch := true, canEdit := true, canView := true,
          loading := false }) ∧
    (∀ role, b.userRole = some role → role ≠ "" → role ≠ "admin" → role ≠ "user" →
      (useUserPermissions b reply).permissions =
        { canAddProfessors := false, canUseAISearch := false, canEdit := false,
          canView := true, loading := false } ∧
      (useUserPermissions b reply).requests = []) := by
  refine ⟨?_, ?_, ?_⟩
  · intro h
    simp [useUserPermissions, roleOrAdmin, h]
  · intro h
    simp [useUserPermissions, roleOrAdmin, h]
  · intro role h hne hadmin huser
    simp [useUserPermissions, roleOrAdmin, h, hne, hadmin, huser]

/-- C27 at an empty storage and at the stored role `"visitor"`. -/
theorem permissions_by_role_witness :
    useUserPermissions { } .threw =
      { permissions :=
          { canAddProfessors := true, canUseAISearch := true, canEdit := true,
            canView := true, loading := false }
        userRole := "admin"
        requests := [] } ∧
    ((useUserPermissions { userRole := some "visitor" } .threw).permissions =
        { canAddProfessors := false, canUseAISearch := false, canEdit := false,
          canView := true, loading := false } ∧
      (useUserPermissions { userRole := some "visitor" } .threw).requests = []) :=
  ⟨(permissions_by_role { } .threw).1 rfl,
   (permissions_by_role { userRole := some "visitor" } .threw).2.2 "visitor" rfl
     (by decide) (by decide) (by decide)⟩

end ProfessorSearch.UserPermissions

namespace ProfessorSearch.SearchPage

/-! ## The pages as a partition of the filtered list -/

theorem currentProfessors_eq_take_drop (l : List Professor) (k : Nat) (hk : 1 ≤ k) :
    currentProfessors l (k : Int) = (l.drop ((k - 1) * 50)).take 50 := by
  rw [currentProfessors_eq l k hk, List.drop_take]
  by_cases hle : k * 50 ≤ l.length
  · rw [Nat.min_eq_left hle]
    congr 1
    omega
  · have hge : l.length ≤ k * 50 := by omega
    rw [Nat.min_eq_right hge]
    apply List.ext_getElem
    · simp only [List.length_take, List.length_drop]
      omega
    · intro i h₁ h₂
      simp [List.getElem_take]

theorem flatMap_chunks (n : Nat) :
    ∀ l : List Professor, l.length ≤ 50 * n →
      (List.range n).flatMap (fun i => (l.drop (i * 50)).take 50) = l := by
  induction n with
  | zero =>
    intro l h
    have : l = [] := List.length_eq_zero.mp (by omega)
    simp [this]
  | succ n ih =>
    intro l h
    rw [List.range_succ_eq_map, List.flatMap_cons, List.flatMap_map]
    have h50 : (l.drop 50).length ≤ 50 * n := by
      rw [List.length_drop]
      omega
    have hrest : (List.range n).flatMap
        (fun a => List.take 50 (List.drop (a.succ * 50) l)) = l.drop 50 := by
      have hih := ih (l.drop 50) h50
      have hfun : (fun a : Nat => List.take 50 (List.drop (a.succ * 50) l)) =
          (fun i => List.take 50 (List.drop (i * 50) (List.drop 50 l))) := by
        funext a
        rw [List.drop_drop]
        congr 2
        omega
      rw [hfun]
      exact hih
    rw [hrest]
    simp

/-- C28: the pages 1..totalPages of a filtered list are each non-empty and hold at most 50
records, all but the last hold exactly 50, and concatenated in page order they give the
filtered list exactly. -/
theorem pages_partition (l : List Professor) :
    (∀ k : Nat, 1 ≤ k → (k : Int) ≤ totalPages l →
      currentProfessors l (k : Int) ≠ [] ∧ (currentProfessors l (k : Int)).length ≤ 50 ∧
      ((k : Int) < totalPages l → (currentProfessors l (k : Int)).length = 50)) ∧
    (List.range (totalPages l).toNat).flatMap
      (fun i => currentProfessors l ((i : Int) + 1)) = l := by
  constructor
  · intro k hk hkt
    rw [totalPages_eq] at hkt ⊢
    have hkt' : k ≤ (l.length + 49) / 50 := by exact_mod_cast hkt
    have hlen : (currentProfessors l (k : Int)).length = min 50 (l.length - (k - 1) * 50) := by
      rw [currentProfessors_eq_take_drop l k hk, List.length_take, List.length_drop]
    refine ⟨?_, ?_, ?_⟩
    · intro hnil
      rw [hnil] at hlen
      simp only [List.length_nil] at hlen
      omega
    · omega
    · intro hlt
      have hlt' : k < (l.length + 49) / 50 := by exact_mod_cast hlt
      omega
  · rw [totalPages_eq, Int.toNat_ofNat]
    have hfun : (fun i : Nat => currentProfessors l ((i : Int) + 1)) =
        (fun i => (l.drop (i * 50)).take 50) := by
      funext i
      have := currentProfessors_eq_take_drop l (i + 1) (by omega)
      simpa using this
    rw [hfun]
    exact flatMap_chunks _ l (by omega)

/-- C28 at a list of 120 records: page 3 is not empty and page 2 holds 50 records. -/
theorem pages_partition_witness :
    currentProfessors (List.replicate 120 ({ } : Professor)) ((2 : Nat) : Int) ≠ [] ∧
    (currentProfessors (List.replicate 120 ({ } : Professor)) ((2 : Nat) : Int)).length ≤ 50 ∧
    (((2 : Nat) : Int) < totalPages (List.replicate 120 ({ } : Professor)) →
      (currentProfessors (List.replicate 120 ({ } : Professor)) ((2 : Nat) : Int)).length =
        50) :=
  (pages_partition (List.replicate 120 { })).1 2 (by decide)
    (by rw [totalPages_eq]; simp)

end ProfessorSearch.SearchPage

namespace ProfessorSearch.SearchPage

/-! ## The research-interest dropdown and selection -/

theorem mem_researchInterests (professors : List Professor) (s : String) :
    s ∈ researchInterests professors ↔
      s ≠ "" ∧ ∃ p ∈ professors, ∃ ri, p.researchInterests = some ri ∧ ri ≠ "" ∧
        ∃ piece ∈ split ri ',', trim piece = s := by
  unfold researchInterests
  rw [(sort_perm _ _).mem_iff, mem_setSpread, List.mem_filter, List.mem_flatMap]
  constructor
  · rintro ⟨⟨ri, hri, hs⟩, hne⟩
    obtain ⟨hri1, hri2⟩ := (mem_filterBoolean _ ri).mp hri
    obtain ⟨p, hp, hpri⟩ := List.mem_map.mp hri2
    obtain ⟨piece, hpiece, rfl⟩ := List.mem_map.mp hs
    exact ⟨by simpa using hne, p, hp, ri, hpri, hri1, piece, hpiece, rfl⟩
  · rintro ⟨hne, p, hp, ri, hpri, hri1, piece, hpiece, rfl⟩
    refine ⟨⟨ri, (mem_filterBoolean _ ri).mpr ⟨hri1, List.mem_map.mpr ⟨p, hp, hpri⟩⟩,
      List.mem_map.mpr ⟨piece, hpiece, rfl⟩⟩, by simpa using hne⟩

theorem applyFilters_research_only (toLowerCase : String → String) (sel : List String)
    (l : List Professor) :
    applyFilters toLowerCase
      { searchName := "", selectedUniversity := "", selectedResearchInterests := sel,
        recruitingFilter := "all", mailedFilter := "all", hiringSemesterFilter := "all" } l =
      researchStage toLowerCase sel l := by
  have ht : trim "" = "" := by decide
  simp [applyFilters, nameStage, universityStage, recruitingStage, mailedStage, hiringStage, ht]

theorem mem_single_interest (toLowerCase : String → String) (interest : String)
    (l : List Professor) (p : Professor) (hp : p ∈ l) (ri piece : String)
    (hri : p.researchInterests = some ri) (hne : ri ≠ "") (hpiece : piece ∈ split ri ',')
    (htrim : trim piece = interest) :
    p ∈ applyFilters toLowerCase
      { searchName := "", selectedUniversity := "", selectedResearchInterests := [interest],
        recruitingFilter := "all", mailedFilter := "all", hiringSemesterFilter := "all" } l := by
  rw [applyFilters_research_only]
  have hcb : researchCallback toLowerCase [interest] p = true := by
    rw [researchCallback_iff]
    refine ⟨ri, hri, hne, interest, List.mem_singleton.mpr rfl, piece, hpiece, ?_⟩
    subst htrim
    exact List.infix_refl _
  simp [researchStage, List.mem_filter, hp, hcb]

/-- C29: the options of the research-interest dropdown are the distinct trimmed non-empty
comma-separated tokens of the professors' `researchInterests`; selecting just one of them,
with all other filters at their defaults, yields a non-empty result that contains every
professor having that token. -/
theorem offered_interest_finds_professors (toLowerCase : String → String)
    (professors : List Professor) (interest : String)
    (hoffered : interest ∈ researchInterests professors) :
    (researchInterests professors).Nodup ∧
    (∀ s, s ∈ researchInterests professors ↔
      s ≠ "" ∧ ∃ p ∈ professors, ∃ ri, p.researchInterests = some ri ∧ ri ≠ "" ∧
        ∃ piece ∈ split ri ',', trim piece = s) ∧
    applyFilters toLowerCase
      { searchName := "", selectedUniversity := "", selectedResearchInterests := [interest],
        recruitingFilter := "all", mailedFilter := "all", hiringSemesterFilter := "all" }
      professors ≠ [] ∧
    (∀ p ∈ professors,
      (∃ ri, p.researchInterests = some ri ∧ ri ≠ "" ∧
        ∃ piece ∈ split ri ',', trim piece = interest) →
      p ∈ applyFilters toLowerCase
        { searchName := "", selectedUniversity := "", selectedResearchInterests := [interest],
          recruitingFilter := "all", mailedFilter := "all", hiringSemesterFilter := "all" }
        professors) := by
  refine ⟨?_, mem_researchInterests professors, ?_, ?_⟩
  · unfold researchInterests
    exact (sort_perm _ _).nodup_iff.mpr (nodup_setSpread _)
  · obtain ⟨_, p, hp, ri, hri, hne, piece, hpiece, htrim⟩ :=
      (mem_researchInterests professors interest).mp hoffered
    exact List.ne_nil_of_mem
      (mem_single_interest toLowerCase interest professors p hp ri piece hri hne hpiece htrim)
  · rintro p hp ⟨ri, hri, hne, piece, hpiece, htrim⟩
    exact mem_single_interest toLowerCase interest professors p hp ri piece hri hne hpiece htrim

/-- C29 at two professors and the offered interest `"Systems"`. -/
theorem offered_interest_finds_professors_witness :
    applyFilters asciiToLowerCase
      { searchName := "", selectedUniversity := "", selectedResearchInterests := ["Systems"],
        recruitingFilter := "all", mailedFilter := "all", hiringSemesterFilter := "all" }
      [{ id := 1, researchInterests := some "Machine Learning, Systems" },
       { id := 2, researchInterests := some "Theory" }] ≠ [] :=
  (offered_interest_finds_professors asciiToLowerCase
    [{ id := 1, researchInterests := some "Machine Learning, Systems" },
     { id := 2, researchInterests := some "Theory" }] "Systems" (by decide)).2.2.1

theorem contains_eq_true_iff (prev : List String) (interest : String) :
    prev.contains interest = true ↔ interest ∈ prev := by
  simp

theorem mem_toggleResearchInterest (prev : List String) (interest s : String) :
    s ∈ toggleResearchInterest prev interest ↔
      (s ≠ interest ∧ s ∈ prev) ∨ (s = interest ∧ interest ∉ prev) := by
  unfold toggleResearchInterest
  by_cases h : interest ∈ prev
  · have hc : prev.contains interest = true := (contains_eq_true_iff prev interest).mpr h
    rw [if_pos hc, List.mem_filter]
    simp only [bne_iff_ne, ne_eq, h, not_true_eq_false, and_false, or_false]
    tauto
  · have hc : ¬ prev.contains interest = true :=
      fun hc => h ((contains_eq_true_iff prev interest).mp hc)
    rw [if_neg hc, List.mem_append, List.mem_singleton]
    constructor
    · rintro (hs | rfl)
      · exact Or.inl ⟨fun e => h (e ▸ hs), hs⟩
      · exact Or.inr ⟨rfl, h⟩
    · rintro (⟨_, hs⟩ | ⟨rfl, _⟩)
      · exact Or.inl hs
      · exact Or.inr rfl

/-- C30: for a duplicate-free selection, `toggleResearchInterest` returns a duplicate-free
selection in which the membership of the interest is flipped and all other members are kept,
in their order; toggling the same interest twice gives a selection with the same members as
the original. -/
theorem toggle_selection (prev : List String) (interest : String) (hprev : prev.Nodup) :
    (toggleResearchInterest prev interest).Nodup ∧
    (interest ∈ toggleResearchInterest prev interest ↔ interest ∉ prev) ∧
    (∀ other, other ≠ interest →
      (other ∈ toggleResearchInterest prev interest ↔ other ∈ prev)) ∧
    (toggleResearchInterest prev interest).filter (fun i => i != interest) =
      prev.filter (fun i => i != interest) ∧
    (∀ s, s ∈ toggleResearchInterest (toggleResearchInterest prev interest) interest ↔
      s ∈ prev) := by
  refine ⟨?_, ?_, ?_, ?_, ?_⟩
  · unfold toggleResearchInterest
    split_ifs with hc
    · exact hprev.filter _
    · have h : interest ∉ prev := fun h => hc ((contains_eq_true_iff prev interest).mpr h)
      exact List.Nodup.append hprev (List.nodup_singleton _)
        (fun a ha hb => h (List.mem_singleton.mp hb ▸ ha))
  · rw [mem_toggleResearchInterest]
    simp
  · intro other hne
    rw [mem_toggleResearchInterest]
    simp [hne]
  · unfold toggleResearchInterest
    split_ifs with hc
    · simp [List.filter_filter]
    · simp [List.filter_append]
  · intro s
    rw [mem_toggleResearchInterest, mem_toggleResearchInterest, mem_toggleResearchInterest]
    by_cases hs : s = interest
    · subst hs
      by_cases hm : s ∈ prev <;> simp [hm]
    · simp [hs]

/-- C30 at the selection `["AI", "Systems"]` and the interest `"AI"`. -/
theorem toggle_selection_witness :
    (toggleResearchInterest ["AI", "Systems"] "AI").Nodup ∧
    ("AI" ∈ toggleResearchInterest ["AI", "Systems"] "AI" ↔ "AI" ∉ ["AI", "Systems"]) :=
  ⟨(toggle_selection ["AI", "Systems"] "AI" (by decide)).1,
   (toggle_selection ["AI", "Systems"] "AI" (by decide)).2.1⟩

end ProfessorSearch.SearchPage
